import Mathlib

/-!
# Verse backend: a shallow embedding of the session / timeline / suggestion core

This file embeds the core of the Verse songwriting backend
(`backend/src/modules/SessionManager.ts`, `TimelineEngine.ts`,
`SuggestionPipeline.ts`, `LyraEngine.ts` and `config/ollama.ts`) as
executable Lean definitions, and proves the specified properties about them.

Modelling conventions:
- TypeScript objects become structures; the `Map` of sessions becomes an
  association list keyed by the session identifier, with JS `Map` access
  semantics (first binding wins; keys are unique in every reachable state).
- In-place mutation of the session object retrieved from the store is
  modelled by rewriting the value stored under the same key
  (`mapModify` / `setSessionAt`).
- `uuidv4()` and `new Date()` are external effects; each operation takes the
  generated identifier / timestamp as an explicit argument.
- A thrown exception is modelled by returning `Except.error` paired with the
  state at the moment of the throw; every operation below throws only before
  mutating, exactly as the source does, so an error is always paired with the
  unchanged input state.
-/

namespace Verse

/-! ## Association-list model of the JS `Map` used by the session store -/

/-- First binding of `k`, as `Map.get` on a unique-key map. -/
def mapGet (m : List (String × α)) (k : String) : Option α :=
  (m.find? (fun p => p.1 == k)).map (·.2)

/-- Rewrite the first binding of `k` in place; models mutating the object
retrieved from the map (the entry keeps its key and position). -/
def mapModify (m : List (String × α)) (k : String) (f : α → α) :
    List (String × α) :=
  match m with
  | [] => []
  | p :: rest =>
    if p.1 == k then (p.1, f p.2) :: rest else p :: mapModify rest k f

/-- `Map.set`: replace the binding if the key is present, else append. -/
def mapSet (m : List (String × α)) (k : String) (v : α) :
    List (String × α) :=
  if m.any (fun p => p.1 == k) then
    m.map (fun p => if p.1 == k then (k, v) else p)
  else m ++ [(k, v)]

/-- `Map.delete`: remove the binding of `k` (keys are unique in every
reachable map, so removing every binding of `k` coincides with it). -/
def mapDelete (m : List (String × α)) (k : String) : List (String × α) :=
  m.filter (fun p => ¬ p.1 == k)

/-- Replace the first element satisfying `p`; models mutating the object
returned by `Array.prototype.find`. -/
def updateFirst (p : α → Bool) (f : α → α) : List α → List α
  | [] => []
  | x :: xs => if p x then f x :: xs else x :: updateFirst p f xs

/-! ## Data model (`backend/src/types.ts`) -/

/-- `SectionType`: closed union of section kinds. -/
inductive SectionType
  | verse | chorus | prechorus | bridge | hook | outro | intro
deriving DecidableEq, Repr

/-- The string value a `SectionType` denotes in TypeScript. -/
def SectionType.toStr : SectionType → String
  | .verse => "verse"
  | .chorus => "chorus"
  | .prechorus => "prechorus"
  | .bridge => "bridge"
  | .hook => "hook"
  | .outro => "outro"
  | .intro => "intro"

/-- `SectionStatus`. -/
inductive SectionStatus
  | draft | working | final
deriving DecidableEq, Repr

/-- `ChordProgression`. -/
structure ChordProgression where
  id : String
  name : String
  chords : List String
deriving DecidableEq, Repr

/-- `MusicContext`. -/
structure MusicContext where
  key : Option String
  bpm : Option Nat
  chordProgressions : Option (List ChordProgression)
deriving DecidableEq, Repr

/-- `Section`. -/
structure Section where
  id : String
  type : SectionType
  label : String
  content : String
  isCollapsed : Bool
  status : Option SectionStatus
  previewingSuggestionId : Option String
  chordProgressionId : Option String
deriving DecidableEq, Repr

/-- `SessionMetadata`. -/
structure SessionMetadata where
  genre : String
  mood : String
  styleReference : Option String
deriving DecidableEq, Repr

/-- Suggestion status (`'pending' | 'applied' | 'rejected'`). -/
inductive SuggStatus
  | pending | applied | rejected
deriving DecidableEq, Repr

/-- The string value a `SuggStatus` denotes in TypeScript. -/
def SuggStatus.toStr : SuggStatus → String
  | .pending => "pending"
  | .applied => "applied"
  | .rejected => "rejected"

/-- `LyraSuggestion`; `createdAt` is a timestamp. -/
structure LyraSuggestion where
  id : String
  targetSectionId : String
  originalContent : String
  suggestedContent : String
  status : SuggStatus
  createdAt : Nat
deriving DecidableEq, Repr

/-- Message role (`'user' | 'lyra'`). -/
inductive Role
  | user | lyra
deriving DecidableEq, Repr

/-- `LyraMessage`. -/
structure LyraMessage where
  id : String
  role : Role
  content : String
  timestamp : Nat
  suggestion : Option LyraSuggestion
deriving DecidableEq, Repr

/-- `SessionData`. -/
structure SessionData where
  sessionId : String
  metadata : SessionMetadata
  sections : List Section
  conversationHistory : List LyraMessage
  createdAt : Nat
  musicContext : Option MusicContext
deriving DecidableEq, Repr

/-- The whole in-memory state: the `SessionManager`'s map of sessions plus
the `SuggestionPipeline`'s suggestion-to-session index. -/
structure AppState where
  sessions : List (String × SessionData)
  suggestionToSession : List (String × String)
deriving DecidableEq, Repr

/-- Error classes of `types.ts`; a plain `new Error(msg)` becomes
`genericError msg`. -/
inductive VerseError
  | sessionNotFound (sessionId : String)
  | sectionNotFound (sectionId : String)
  | suggestionNotFound (suggestionId : String)
  | genericError (message : String)
deriving DecidableEq, Repr

/-! ## SessionManager -/

/-- `SessionManager.getSession`. -/
def getSession (st : AppState) (sessionId : String) : Option SessionData :=
  mapGet st.sessions sessionId

/-- Rewrite the session object stored under `sessionId` (in-place mutation of
the object returned by `getSession`). -/
def setSessionAt (st : AppState) (sessionId : String) (s : SessionData) :
    AppState :=
  { st with sessions := mapModify st.sessions sessionId (fun _ => s) }

/-- `SessionManager.createSession`. -/
def createSession (st : AppState) (metadata : SessionMetadata)
    (newId : String) (now : Nat) : String × AppState :=
  let sessionData : SessionData :=
    ⟨newId, metadata, [], [], now, none⟩
  (newId, { st with sessions := mapSet st.sessions newId sessionData })

/-- `SessionManager.endSession`: clears the session's collections, then
deletes the entry; returns whether it existed. -/
def clearSessionData (s : SessionData) : SessionData :=
  { s with sections := [], conversationHistory := [] }

/-- `SessionManager.endSession`. -/
def endSession (st : AppState) (sessionId : String) : Bool × AppState :=
  match getSession st sessionId with
  | some _ =>
    let stCleared :=
      { st with sessions := mapModify st.sessions sessionId clearSessionData }
    (true, { stCleared with
              sessions := mapDelete stCleared.sessions sessionId })
  | none => (false, st)

/-! ## TimelineEngine (`backend/src/modules/TimelineEngine.ts`)

Every operation first performs `sessionManager.getSessionOrThrow(sessionId)`;
a missing session yields `SessionNotFoundError` with the state unchanged. -/

/-- `TimelineEngine.findSection` without the throw: `sections.find(...)`. -/
def findSection? (sections : List Section) (sectionId : String) :
    Option Section :=
  sections.find? (fun s => s.id == sectionId)

/-- `TimelineEngine.addSection` (`content` defaults to `""` at the call
sites that omit it; `newId` is the `uuidv4()` result). -/
def addSection (st : AppState) (sessionId : String) (type : SectionType)
    (label content newId : String) : Except VerseError Section × AppState :=
  match getSession st sessionId with
  | none => (.error (.sessionNotFound sessionId), st)
  | some session =>
    let sec : Section := ⟨newId, type, label, content, false, none, none, none⟩
    (.ok sec,
      setSessionAt st sessionId
        { session with sections := session.sections ++ [sec] })

/-- The field merge performed by `TimelineEngine.updateSection`. -/
def applySectionUpdates (sec : Section) (content? label? : Option String) :
    Section :=
  let sec := match content? with
    | some c => { sec with content := c }
    | none => sec
  match label? with
  | some l => { sec with label := l }
  | none => sec

/-- `TimelineEngine.updateSection`: in-place merge on the first section with
the given identifier. -/
def updateSection (st : AppState) (sessionId sectionId : String)
    (content? label? : Option String) : Except VerseError Section × AppState :=
  match getSession st sessionId with
  | none => (.error (.sessionNotFound sessionId), st)
  | some session =>
    match findSection? session.sections sectionId with
    | none => (.error (.sectionNotFound sectionId), st)
    | some sec =>
      let updated := applySectionUpdates sec content? label?
      (.ok updated,
        setSessionAt st sessionId
          { session with
              sections :=
                updateFirst (fun s => s.id == sectionId)
                  (fun s => applySectionUpdates s content? label?)
                  session.sections })

/-- `TimelineEngine.deleteSection`. -/
def deleteSection (st : AppState) (sessionId sectionId : String) :
    Except VerseError Unit × AppState :=
  match getSession st sessionId with
  | none => (.error (.sessionNotFound sessionId), st)
  | some session =>
    if session.sections.any (fun s => s.id == sectionId) then
      (.ok (),
        setSessionAt st sessionId
          { session with
              sections := session.sections.eraseP (fun s => s.id == sectionId) })
    else (.error (.sectionNotFound sectionId), st)

/-- The message of the generic reorder error. -/
def reorderErrorMsg : String := "Section ID array must contain all section IDs"

/-- `TimelineEngine.reorderSections`: every supplied identifier must exist
(first unknown one throws `SectionNotFoundError`), the lengths must agree,
and then the session's list becomes the sections of the supplied identifiers
in the supplied order. -/
def reorderSections (st : AppState) (sessionId : String)
    (sectionIds : List String) : Except VerseError (List Section) × AppState :=
  match getSession st sessionId with
  | none => (.error (.sessionNotFound sessionId), st)
  | some session =>
    match sectionIds.find?
        (fun id => ! session.sections.any (fun s => s.id == id)) with
    | some badId => (.error (.sectionNotFound badId), st)
    | none =>
      if sectionIds.length ≠ session.sections.length then
        (.error (.genericError reorderErrorMsg), st)
      else
        let newSections :=
          sectionIds.filterMap (fun id => findSection? session.sections id)
        (.ok newSections,
          setSessionAt st sessionId { session with sections := newSections })

/-- `TimelineEngine.duplicateSection` (`newId` is the `uuidv4()` result). -/
def duplicateSection (st : AppState) (sessionId sectionId newId : String) :
    Except VerseError Section × AppState :=
  match getSession st sessionId with
  | none => (.error (.sessionNotFound sessionId), st)
  | some session =>
    match findSection? session.sections sectionId with
    | none => (.error (.sectionNotFound sectionId), st)
    | some original =>
      let dup : Section :=
        ⟨newId, original.type, original.label ++ " (Copy)", original.content,
          original.isCollapsed, original.status, none,
          original.chordProgressionId⟩
      (.ok dup,
        setSessionAt st sessionId
          { session with sections := session.sections ++ [dup] })

/-- The duplicate record built by `TimelineEngine.duplicateSection`: fresh
identifier, copied fields, label suffixed with `" (Copy)"`, no preview. -/
def dupOf (original : Section) (newId : String) : Section :=
  ⟨newId, original.type, original.label ++ " (Copy)", original.content,
    original.isCollapsed, original.status, none, original.chordProgressionId⟩

/-- `TimelineEngine.getSections` (returns a copy; in the functional model the
copy is the value itself). -/
def getSections (st : AppState) (sessionId : String) :
    Except VerseError (List Section) :=
  match getSession st sessionId with
  | none => .error (.sessionNotFound sessionId)
  | some session => .ok session.sections

/-! ## SuggestionPipeline (`backend/src/modules/SuggestionPipeline.ts`) -/

/-- Whether a message embeds the suggestion with the given identifier
(`message.suggestion && message.suggestion.id === suggestionId`). -/
def msgHasSugg (suggestionId : String) (m : LyraMessage) : Bool :=
  match m.suggestion with
  | some s => s.id == suggestionId
  | none => false

/-- `SuggestionPipeline.findSuggestion` without the throw: scan the
conversation history for the first message embedding the suggestion. -/
def findSuggestion? (conversationHistory : List LyraMessage)
    (suggestionId : String) : Option LyraSuggestion :=
  (conversationHistory.find? (msgHasSugg suggestionId)).bind (·.suggestion)

/-- The in-place status write `suggestion.status = newStatus`. -/
def withStatus (newStatus : SuggStatus) (s : LyraSuggestion) : LyraSuggestion :=
  { s with status := newStatus }

/-- In-place status flip of the suggestion object found by `findSuggestion`:
rewrite the first message embedding it. -/
def setSuggestionStatus (conversationHistory : List LyraMessage)
    (suggestionId : String) (newStatus : SuggStatus) : List LyraMessage :=
  updateFirst (msgHasSugg suggestionId)
    (fun m => { m with suggestion := m.suggestion.map (withStatus newStatus) })
    conversationHistory

/-- The message of the state-precondition error thrown by
`applySuggestion` / `rejectSuggestion` on a non-pending suggestion. -/
def notPendingMsg (suggestionId : String) (status : SuggStatus) : String :=
  "Suggestion " ++ suggestionId ++ " is not pending (status: "
    ++ status.toStr ++ ")"

/-- `SuggestionPipeline.createSuggestion`: builds a pending suggestion and
records it only in the suggestion-to-session index (`newId` is the
`uuidv4()` result, `now` the `new Date()` timestamp). -/
def createSuggestion (st : AppState)
    (sessionId targetSectionId originalContent suggestedContent : String)
    (newId : String) (now : Nat) :
    Except VerseError LyraSuggestion × AppState :=
  match getSession st sessionId with
  | none => (.error (.sessionNotFound sessionId), st)
  | some _ =>
    let suggestion : LyraSuggestion :=
      ⟨newId, targetSectionId, originalContent, suggestedContent,
        .pending, now⟩
    (.ok suggestion,
      { st with
          suggestionToSession :=
            mapSet st.suggestionToSession newId sessionId })

/-- `SuggestionPipeline.applySuggestion`: locate the suggestion in the
session's conversation history, require `pending` status, update the target
section's content through `updateSection`, then flip the status to
`applied`. -/
def applySuggestion (st : AppState) (sessionId suggestionId : String) :
    Except VerseError Section × AppState :=
  match getSession st sessionId with
  | none => (.error (.sessionNotFound sessionId), st)
  | some session =>
    match findSuggestion? session.conversationHistory suggestionId with
    | none => (.error (.suggestionNotFound suggestionId), st)
    | some suggestion =>
      if suggestion.status ≠ SuggStatus.pending then
        (.error (.genericError (notPendingMsg suggestionId suggestion.status)),
          st)
      else
        match updateSection st sessionId suggestion.targetSectionId
            (some suggestion.suggestedContent) none with
        | (.error e, st₁) => (.error e, st₁)
        | (.ok updatedSection, st₁) =>
          (.ok updatedSection,
            { st₁ with
                sessions :=
                  mapModify st₁.sessions sessionId
                    (fun s =>
                      { s with
                          conversationHistory :=
                            setSuggestionStatus s.conversationHistory
                              suggestionId .applied }) })

/-- `SuggestionPipeline.rejectSuggestion`: same lookup and precondition as
`applySuggestion`, flips the status to `rejected`, touches no section. -/
def rejectSuggestion (st : AppState) (sessionId suggestionId : String) :
    Except VerseError Unit × AppState :=
  match getSession st sessionId with
  | none => (.error (.sessionNotFound sessionId), st)
  | some session =>
    match findSuggestion? session.conversationHistory suggestionId with
    | none => (.error (.suggestionNotFound suggestionId), st)
    | some suggestion =>
      if suggestion.status ≠ SuggStatus.pending then
        (.error (.genericError (notPendingMsg suggestionId suggestion.status)),
          st)
      else
        (.ok (),
          { st with
              sessions :=
                mapModify st.sessions sessionId
                  (fun s =>
                    { s with
                        conversationHistory :=
                          setSuggestionStatus s.conversationHistory
                            suggestionId .rejected }) })

/-- `SuggestionPipeline.getPendingSuggestions`: scan the history and collect
embedded suggestions with `pending` status, in order. -/
def getPendingSuggestions (st : AppState) (sessionId : String) :
    Except VerseError (List LyraSuggestion) :=
  match getSession st sessionId with
  | none => .error (.sessionNotFound sessionId)
  | some session =>
    .ok (session.conversationHistory.filterMap
      (fun m =>
        match m.suggestion with
        | some s => if s.status = .pending then some s else none
        | none => none))

/-- `SuggestionPipeline.cleanupSession`: drop every index entry pointing at
the session. -/
def cleanupSession (st : AppState) (sessionId : String) : AppState :=
  { st with
      suggestionToSession :=
        st.suggestionToSession.filter (fun p => ¬ p.2 == sessionId) }

/-! ## Ollama configuration (`backend/src/config/ollama.ts`) and thrown errors -/

/-- `OLLAMA_CONFIG.baseUrl`. -/
def ollamaBaseUrl : String := "http://localhost:11434"

/-- `OLLAMA_CONFIG.model`. -/
def ollamaModel : String := "lyra-general"

/-- A thrown JS error, observed through its `name` and `message`. -/
structure ThrownError where
  name : String
  message : String
deriving DecidableEq, Repr

/-- `new OllamaConnectionError(msg)`: the class prepends
`"Ollama connection error: "` to the message. -/
def ollamaConnectionError (msg : String) : ThrownError :=
  ⟨"OllamaConnectionError", "Ollama connection error: " ++ msg⟩

/-- The axios error as inspected by `LyraEngine.handleAxiosError`
(`isAxiosError`, `code`, `response?.status`, `message`). -/
structure AxiosLikeError where
  isAxiosError : Bool
  code : Option String
  responseStatus : Option Nat
  message : String
  name : String
deriving DecidableEq, Repr

/-- `LyraEngine.handleAxiosError`: `none` means the original error is
re-thrown unchanged (non-axios errors). -/
def handleAxiosError (e : AxiosLikeError) : Option ThrownError :=
  if ¬ e.isAxiosError then none
  else if e.code == some "ECONNREFUSED" then
    some (ollamaConnectionError
      ("Cannot connect to Ollama at " ++ ollamaBaseUrl ++ ". Is it running?"))
  else if e.responseStatus == some 404 then
    some (ollamaConnectionError
      ("Local Ollama model \x27" ++ ollamaModel ++ "\x27 not found."))
  else
    some (ollamaConnectionError ("Ollama request failed: " ++ e.message))

/-- The error built for a user-initiated cancellation
(`name = 'GenerationAbortedError'`). -/
def generationAbortedError : ThrownError := ⟨"GenerationAbortedError", "Generation aborted"⟩

/-- The `catch` clause of `LyraEngine.callOllamaStream`: `ERR_CANCELED`
becomes the aborted error, everything else goes through
`handleAxiosError`, and a non-axios error is re-thrown as itself. -/
def callOllamaStreamCatch (e : AxiosLikeError) : ThrownError :=
  if e.isAxiosError && e.code == some "ERR_CANCELED" then generationAbortedError
  else
    match handleAxiosError e with
    | some t => t
    | none => ⟨e.name, e.message⟩

/-! ## A model of `JSON.parse` for the newline-delimited stream records

`JSON.parse` is a JS builtin; it is modelled here by a small recursive-descent
JSON parser (strings with escapes, numbers kept as their lexeme, booleans,
`null`, arrays, objects). A parse failure models the thrown `SyntaxError`. -/

/-- A parsed JSON value; numbers keep their lexeme. -/
inductive Json
  | str (s : String)
  | num (raw : String)
  | bool (b : Bool)
  | null
  | arr (elems : List Json)
  | obj (fields : List (String × Json))

/-- JSON insignificant whitespace. -/
def isJsonWs (c : Char) : Bool :=
  c == ' ' || c == '\n' || c == '\t' || c == '\r'

/-- Skip insignificant whitespace. -/
def skipWs (cs : List Char) : List Char := cs.dropWhile isJsonWs

/-- One hexadecimal digit. -/
def hexDigit? (c : Char) : Option Nat :=
  if '0' ≤ c ∧ c ≤ '9' then some (c.toNat - 48)
  else if 'a' ≤ c ∧ c ≤ 'f' then some (c.toNat - 87)
  else if 'A' ≤ c ∧ c ≤ 'F' then some (c.toNat - 55)
  else none

/-- Four hexadecimal digits (a `\uXXXX` escape). -/
def hex4 (a b c d : Char) : Option Nat := do
  let x ← hexDigit? a
  let y ← hexDigit? b
  let z ← hexDigit? c
  let w ← hexDigit? d
  pure (x * 4096 + y * 256 + z * 16 + w)

/-- Body of a JSON string after the opening quote. -/
def parseStringBody (fuel : Nat) (cs : List Char) (acc : List Char) :
    Option (String × List Char) :=
  match fuel with
  | 0 => none
  | fuel + 1 =>
    match cs with
    | [] => none
    | '"' :: rest => some (String.mk acc.reverse, rest)
    | '\\' :: rest =>
      match rest with
      | [] => none
      | e :: rest' =>
        if e = '"' then parseStringBody fuel rest' ('"' :: acc)
        else if e = '\\' then parseStringBody fuel rest' ('\\' :: acc)
        else if e = '/' then parseStringBody fuel rest' ('/' :: acc)
        else if e = 'n' then parseStringBody fuel rest' ('\n' :: acc)
        else if e = 't' then parseStringBody fuel rest' ('\t' :: acc)
        else if e = 'r' then parseStringBody fuel rest' ('\r' :: acc)
        else if e = 'b' then parseStringBody fuel rest' ('\x08' :: acc)
        else if e = 'f' then parseStringBody fuel rest' ('\x0c' :: acc)
        else if e = 'u' then
          match rest' with
          | a :: b :: c :: d :: rest'' =>
            match hex4 a b c d with
            | some n => parseStringBody fuel rest'' (Char.ofNat n :: acc)
            | none => none
          | _ => none
        else none
    | c :: rest => parseStringBody fuel rest (c :: acc)

/-- Exponent digits of a JSON number. -/
def parseExpDigits (acc pre : List Char) (cs : List Char) :
    Option (Json × List Char) :=
  let (sgn, cs₁) := match cs with
    | '+' :: rest => (['+'], rest)
    | '-' :: rest => (['-'], rest)
    | _ => (([] : List Char), cs)
  let (ds, cs₂) := cs₁.span Char.isDigit
  if ds.isEmpty then none
  else some (.num (String.mk (acc ++ pre ++ sgn ++ ds)), cs₂)

/-- Optional exponent part of a JSON number. -/
def parseExpPart (acc : List Char) (cs : List Char) :
    Option (Json × List Char) :=
  match cs with
  | 'e' :: rest => parseExpDigits acc ['e'] rest
  | 'E' :: rest => parseExpDigits acc ['E'] rest
  | _ => some (.num (String.mk acc), cs)

/-- A JSON number (kept as its lexeme). -/
def parseNumber (cs : List Char) : Option (Json × List Char) :=
  let (sign, cs₁) := match cs with
    | '-' :: rest => ((['-'] : List Char), rest)
    | _ => (([] : List Char), cs)
  let (ip, cs₂) := cs₁.span Char.isDigit
  if ip.isEmpty then none
  else
    match cs₂ with
    | '.' :: rest =>
      let (fp, cs₃) := rest.span Char.isDigit
      if fp.isEmpty then none
      else parseExpPart (sign ++ ip ++ '.' :: fp) cs₃
    | _ => parseExpPart (sign ++ ip) cs₂

mutual

/-- A JSON value. -/
def parseValue (fuel : Nat) (cs : List Char) : Option (Json × List Char) :=
  match fuel with
  | 0 => none
  | fuel + 1 =>
    match skipWs cs with
    | [] => none
    | '"' :: rest =>
      (parseStringBody (rest.length + 1) rest []).map
        (fun p => (.str p.1, p.2))
    | '{' :: rest => (parseObjFields fuel rest true).map
        (fun p => (.obj p.1, p.2))
    | '[' :: rest => (parseArrElems fuel rest true).map
        (fun p => (.arr p.1, p.2))
    | 't' :: 'r' :: 'u' :: 'e' :: rest => some (.bool true, rest)
    | 'f' :: 'a' :: 'l' :: 's' :: 'e' :: rest => some (.bool false, rest)
    | 'n' :: 'u' :: 'l' :: 'l' :: rest => some (.null, rest)
    | cs' => parseNumber cs'

/-- Fields of a JSON object after the opening brace (`first` is whether no
pair has been read yet, so that only `\x7b\x7d` may close immediately). -/
def parseObjFields (fuel : Nat) (cs : List Char) (first : Bool) :
    Option (List (String × Json) × List Char) :=
  match fuel with
  | 0 => none
  | fuel + 1 =>
    match skipWs cs with
    | '}' :: rest => if first then some ([], rest) else none
    | '"' :: rest =>
      match parseStringBody (rest.length + 1) rest [] with
      | none => none
      | some (key, r₁) =>
        match skipWs r₁ with
        | ':' :: r₂ =>
          match parseValue fuel r₂ with
          | none => none
          | some (v, r₃) =>
            match skipWs r₃ with
            | ',' :: r₄ =>
              (parseObjFields fuel r₄ false).map
                (fun p => ((key, v) :: p.1, p.2))
            | '}' :: r₄ => some ([(key, v)], r₄)
            | _ => none
        | _ => none
    | _ => none

/-- Elements of a JSON array after the opening bracket. -/
def parseArrElems (fuel : Nat) (cs : List Char) (first : Bool) :
    Option (List Json × List Char) :=
  match fuel with
  | 0 => none
  | fuel + 1 =>
    match skipWs cs with
    | ']' :: rest => if first then some ([], rest) else none
    | _ =>
      match parseValue fuel cs with
      | none => none
      | some (v, r₁) =>
        match skipWs r₁ with
        | ',' :: r₂ =>
          (parseArrElems fuel r₂ false).map (fun p => (v :: p.1, p.2))
        | ']' :: r₂ => some ([v], r₂)
        | _ => none

end

/-- `JSON.parse`: parse a complete JSON document, requiring that only
whitespace remains. -/
def jsonParse (s : String) : Option Json :=
  match parseValue (4 * s.data.length + 16) s.data with
  | some (v, rest) => if (skipWs rest).isEmpty then some v else none
  | none => none

/-- Field access `parsed.k` on a parse result (JS keeps the last duplicate
key); `none` models `undefined`. -/
def objGet (j : Json) (k : String) : Option Json :=
  match j with
  | .obj fields => ((fields.filter (fun p => p.1 == k)).getLast?).map (·.2)
  | _ => none

/-- JS truthiness of a possibly-absent field value. -/
def jsTruthy : Option Json → Bool
  | none => false
  | some (.str s) => ¬ s == ""
  | some (.num raw) => ¬ (raw == "0" || raw == "-0")
  | some (.bool b) => b
  | some .null => false
  | some (.arr _) => true
  | some (.obj _) => true

mutual

/-- JS string coercion of a JSON value (used by the template literal
interpolating `parsed.error`). -/
def jsonToDisplay : Json → String
  | .str s => s
  | .num raw => raw
  | .bool b => if b then "true" else "false"
  | .null => "null"
  | .obj _ => "[object Object]"
  | .arr xs => jsonListDisplay xs

/-- JS string coercion of an array's elements. -/
def jsonListDisplay : List Json → String
  | [] => ""
  | [x] => jsonToDisplay x
  | x :: xs => jsonToDisplay x ++ "," ++ jsonListDisplay xs

end

/-! ## The streaming reader of `LyraEngine.callOllamaStream`

The promise executor installs `data` / `end` handlers on the response body.
Its state is the accumulated text, the partial-line buffer, and whether the
promise has settled (`finish` runs its callback only once).  The list of
`onChunk` invocations is recorded in `emitted`, in call order. -/

/-- A rejection of the streaming promise. -/
inductive StreamErr
  | syntaxError
  | ollamaStreamError (message : String)
deriving DecidableEq, Repr

deriving instance DecidableEq for Except

/-- The executor's mutable state plus the observable `onChunk` trace. -/
structure StreamState where
  fullResponse : String
  buffer : String
  emitted : List String
  settled : Option (Except StreamErr String)
deriving DecidableEq, Repr

/-- Initial state of the executor. -/
def initStream : StreamState := ⟨"", "", [], none⟩

/-- `finish`: settle the promise unless it already settled. -/
def finishWith (st : StreamState) (r : Except StreamErr String) : StreamState :=
  if st.settled.isSome then st else { st with settled := some r }

/-- `buffer.indexOf('\n')` + the two slices: the first line (without its
newline) and everything after it. -/
def breakNl : List Char → Option (List Char × List Char)
  | [] => none
  | c :: rest =>
    if c = '\n' then some ([], rest)
    else (breakNl rest).map (fun p => (c :: p.1, p.2))

/-- Whitespace removed by `String.prototype.trim`. -/
def isJsWs (c : Char) : Bool :=
  c == ' ' || c == '\n' || c == '\t' || c == '\r' || c == '\x0c' || c == '\x0b'

/-- `String.prototype.trim` on a character list. -/
def trimChars (cs : List Char) : List Char :=
  ((cs.dropWhile isJsWs).reverse.dropWhile isJsWs).reverse

/-- `String.prototype.trim`. -/
def strTrim (s : String) : String := String.mk (trimChars s.data)

/-- `processLine`: parse one line, throw on an `error` field, and report the
non-empty `response` fragment (if any) together with the `done` flag. -/
def processLine (line : String) : Except StreamErr (Option String × Bool) :=
  match jsonParse line with
  | none => .error .syntaxError
  | some j =>
    if jsTruthy (objGet j "error") then
      .error (.ollamaStreamError
        ("Ollama stream error: " ++ jsonToDisplay ((objGet j "error").getD .null)))
    else
      let frag := match objGet j "response" with
        | some (.str s) => if s.length > 0 then some s else none
        | _ => none
      let done := match objGet j "done" with
        | some (.bool true) => true
        | _ => false
      .ok (frag, done)

/-- `fullResponse += fragment; onChunk(fragment)` for a non-empty fragment. -/
def emitFrag (st : StreamState) (frag : Option String) : StreamState :=
  match frag with
  | some s =>
    { st with fullResponse := st.fullResponse ++ s, emitted := st.emitted ++ [s] }
  | none => st

/-- The `while (newlineIndex !== -1)` loop of the `data` handler: slice off
complete lines and process them; a `done` record or an error settles the
promise and exits the loop (later `data` events keep processing). -/
def drainBuffer (fuel : Nat) (st : StreamState) : StreamState :=
  match fuel with
  | 0 => st
  | fuel + 1 =>
    match breakNl st.buffer.data with
    | none => st
    | some (lineChars, restChars) =>
      let st₁ := { st with buffer := String.mk restChars }
      let line := String.mk (trimChars lineChars)
      if line == "" then drainBuffer fuel st₁
      else
        match processLine line with
        | .ok (frag, done) =>
          let st₂ := emitFrag st₁ frag
          if done then finishWith st₂ (.ok st₂.fullResponse)
          else drainBuffer fuel st₂
        | .error e => finishWith st₁ (.error e)

/-- The `data` handler: append the chunk to the buffer and drain complete
lines (the fuel bounds the loop by the buffer length). -/
def handleData (st : StreamState) (chunk : String) : StreamState :=
  let st' := { st with buffer := st.buffer ++ chunk }
  drainBuffer (st'.buffer.data.length + 1) st'

/-- The `end` handler: if unsettled, process the trimmed remainder of the
buffer (ignoring it if blank) and resolve with the accumulated text. -/
def handleEnd (st : StreamState) : StreamState :=
  if st.settled.isSome then st
  else
    let remaining := strTrim st.buffer
    if remaining == "" then { st with settled := some (.ok st.fullResponse) }
    else
      match processLine remaining with
      | .ok (frag, _done) =>
        let st₂ := emitFrag st frag
        { st₂ with settled := some (.ok st₂.fullResponse) }
      | .error e => { st with settled := some (.error e) }

/-- Feed a whole response body, delivered as the given chunks, to the
executor and fire the final `end` event. -/
def runStream (chunks : List String) : StreamState :=
  handleEnd (chunks.foldl handleData initStream)

/-! ## LyraEngine prompt construction (`LyraEngine.constructPrompt`) -/

/-- `Array.prototype.join(sep)`. -/
def joinSep (sep : String) : List String → String
  | [] => ""
  | [x] => x
  | x :: xs => x ++ sep ++ joinSep sep xs

/-- The fixed system/identity preamble of `constructPrompt`. -/
def systemPrompt : String :=
  "You are Lyra, an AI songwriting collaborator. You help songwriters brainstorm ideas and refine their lyrics with creativity and respect.\n\nCRITICAL RULES:\n1. NEVER directly edit or rewrite lyrics - only provide suggestions and ideas\n2. Help brainstorm concepts, themes, rhyme schemes, and lyrical approaches\n3. Be aware of section types and instances (e.g., \"Chorus 1\" vs \"Chorus 2\")\n4. Be creative but respectful of the writer\x27s voice\n5. Keep responses concise and actionable\n6. Use musical context (key, BPM, chords) to inform suggestions about syllable density and cadence\n7. NEVER suggest or modify chord progressions unless explicitly asked\n8. Format your responses with markdown for clarity:\n   - Use **bold** for emphasis\n   - Use bullet points (- or *) for lists\n   - Use > for important notes or quotes\n9. The user will manually edit their lyrics based on your suggestions\n\nWhen providing lyrical ideas or alternatives, simply present them naturally in your response without special formatting tags."

/-- The song-context block, including the optional musical-context lines
(empty string fields are falsy in JS and suppress their line). -/
def contextSection (metadata : SessionMetadata)
    (musicContext : Option MusicContext) : String :=
  let base :=
    "\nSONG CONTEXT:\nGenre: " ++ metadata.genre
      ++ "\nMood: " ++ metadata.mood ++ "\n"
      ++ (match metadata.styleReference with
          | some r => if r == "" then "" else "Style Reference: " ++ r
          | none => "")
  match musicContext with
  | none => base
  | some mc =>
    let musicalInfo :=
      (match mc.key with
        | some k => if k == "" then [] else ["Key: " ++ k]
        | none => []) ++
      (match mc.bpm with
        | some b => if b == 0 then [] else ["Tempo: " ++ toString b ++ " BPM"]
        | none => [])
    if musicalInfo.length > 0 then
      base ++ "\n\nMUSICAL CONTEXT:\n" ++ joinSep "\n" musicalInfo
    else base

/-- The `findProgression` helper closed over the session's music context
(`!progressionId || !musicContext?.chordProgressions` short-circuits). -/
def findProgression (musicContext : Option MusicContext)
    (progressionId : Option String) : Option ChordProgression :=
  match progressionId with
  | none => none
  | some pid =>
    if pid == "" then none
    else
      match musicContext with
      | none => none
      | some mc =>
        match mc.chordProgressions with
        | none => none
        | some ps => ps.find? (fun p => p.id == pid)

/-- One timeline entry: `index+1`, label, type, optional chord line, and the
content or the explicit `(empty)` marker. -/
def renderSectionEntry (musicContext : Option MusicContext) (index : Nat)
    (s : Section) : String :=
  toString (index + 1) ++ ". " ++ s.label ++ " (" ++ s.type.toStr ++ ")\n"
    ++ (match findProgression musicContext s.chordProgressionId with
        | some p => "Chords: " ++ joinSep " – " p.chords
        | none => "")
    ++ "\n"
    ++ (if s.content == "" then "(empty)" else s.content)
    ++ "\n---"

/-- `sections.map((s, index) => ...)`. -/
def renderEntries (musicContext : Option MusicContext) (index : Nat) :
    List Section → List String
  | [] => []
  | s :: rest =>
    renderSectionEntry musicContext index s
      :: renderEntries musicContext (index + 1) rest

/-- The timeline block of the prompt. -/
def timelineSection (musicContext : Option MusicContext)
    (sections : List Section) : String :=
  if sections.length > 0 then
    "\nCURRENT TIMELINE (" ++ toString sections.length ++ " sections):\n"
      ++ joinSep "\n" (renderEntries musicContext 0 sections) ++ "\n"
  else "\nCURRENT TIMELINE: (no sections yet)\n"

/-- One rendered conversation line (`User:` / `Lyra:`). -/
def renderMsg (m : LyraMessage) : String :=
  (match m.role with
    | .user => "User"
    | .lyra => "Lyra") ++ ": " ++ m.content

/-- The full-history block of the prompt. -/
def historySection (conversationHistory : List LyraMessage) : String :=
  if conversationHistory.length > 0 then
    "\nCONVERSATION HISTORY (oldest to newest):\n"
      ++ joinSep "\n" (conversationHistory.map renderMsg) ++ "\n"
  else ""

/-- `LyraEngine.constructPrompt`: preamble, song context, full timeline,
full conversation history, and the trailing `Lyra:` cue. -/
def constructPrompt (session : SessionData) : String :=
  systemPrompt ++ "\n"
    ++ contextSection session.metadata session.musicContext ++ "\n"
    ++ timelineSection session.musicContext session.sections ++ "\n"
    ++ historySection session.conversationHistory
    ++ "\n\nLyra:"

/-! ## LyraEngine message flow (`sendMessage` / `sendMessageStream`) -/

/-- `LyraEngine.parseResponse`: the reply is returned as-is (trimmed), with
no suggestion ever extracted. -/
def parseResponse (response : String) : String × Option LyraSuggestion :=
  (strTrim response, none)

/-- `LyraEngine.appendUserMessage` (`msgId` is the `uuidv4()` result, `now`
the `new Date()` timestamp). -/
def appendUserMessage (session : SessionData) (userMessage msgId : String)
    (now : Nat) : SessionData :=
  { session with
      conversationHistory :=
        session.conversationHistory ++ [⟨msgId, .user, userMessage, now, none⟩] }

/-- The value of `LyraEngine.sendMessage` / `sendMessageStream`. -/
structure LyraResponse where
  message : LyraMessage
  suggestion : Option LyraSuggestion
deriving DecidableEq, Repr

/-- `LyraEngine.appendLyraResponse`. -/
def appendLyraResponse (session : SessionData) (message : String)
    (suggestion : Option LyraSuggestion) (msgId : String) (now : Nat) :
    LyraResponse × SessionData :=
  let lyraMsg : LyraMessage := ⟨msgId, .lyra, message, now, suggestion⟩
  (⟨lyraMsg, suggestion⟩,
    { session with
        conversationHistory := session.conversationHistory ++ [lyraMsg] })

/-- An error escaping `sendMessage` / `sendMessageStream`: a domain error or
a thrown gateway error. -/
inductive SendErr
  | verse (e : VerseError)
  | gateway (e : ThrownError)
deriving DecidableEq, Repr

/-- The prompt `sendMessage` builds and hands to `callOllama` (line 46 of the
engine: `constructPrompt` on the session after the user append). -/
def sendMessagePromptOf (session : SessionData) (userMessage msgId : String)
    (now : Nat) : String :=
  constructPrompt (appendUserMessage session userMessage msgId now)

/-- The prompt `sendMessageStream` builds and hands to `callOllamaStream`
(line 74 of the engine: the same computation on the same session state). -/
def sendMessageStreamPromptOf (session : SessionData)
    (userMessage msgId : String) (now : Nat) : String :=
  constructPrompt (appendUserMessage session userMessage msgId now)

/-- `LyraEngine.sendMessage`: append the user message, build the prompt,
call Ollama (the blocking call is external, so its outcome `modelResult` is
an argument), parse, and append the assistant message.  A gateway failure
leaves the user message appended. -/
def sendMessage (st : AppState) (sessionId userMessage : String)
    (modelResult : Except ThrownError String)
    (userMsgId lyraMsgId : String) (now₁ now₂ : Nat) :
    Except SendErr LyraResponse × AppState :=
  match getSession st sessionId with
  | none => (.error (.verse (.sessionNotFound sessionId)), st)
  | some session =>
    let session₁ := appendUserMessage session userMessage userMsgId now₁
    let st₁ := setSessionAt st sessionId session₁
    match modelResult with
    | .error t => (.error (.gateway t), st₁)
    | .ok response =>
      let parsed := parseResponse response
      let (lyraResponse, session₂) :=
        appendLyraResponse session₁ parsed.1 parsed.2 lyraMsgId now₂
      (.ok lyraResponse, setSessionAt st₁ sessionId session₂)

/-- The outcome of `callOllamaStream` on a response body delivered as the
given chunks: the settled promise, with a stream rejection converted to the
thrown error object. -/
def streamOutcome (chunks : List String) : Except ThrownError String :=
  match (runStream chunks).settled with
  | some (.ok text) => .ok text
  | some (.error (.ollamaStreamError msg)) =>
    .error (ollamaConnectionError msg)
  | some (.error .syntaxError) =>
    .error ⟨"SyntaxError", "Unexpected token in JSON"⟩
  | none => .error ⟨"SyntaxError", "Unexpected token in JSON"⟩

/-- `LyraEngine.sendMessageStream`: identical flow to `sendMessage`, with
the response text assembled by the streaming reader from the body chunks. -/
def sendMessageStream (st : AppState) (sessionId userMessage : String)
    (chunks : List String) (userMsgId lyraMsgId : String) (now₁ now₂ : Nat) :
    Except SendErr LyraResponse × AppState :=
  match getSession st sessionId with
  | none => (.error (.verse (.sessionNotFound sessionId)), st)
  | some session =>
    let session₁ := appendUserMessage session userMessage userMsgId now₁
    let st₁ := setSessionAt st sessionId session₁
    match streamOutcome chunks with
    | .error t => (.error (.gateway t), st₁)
    | .ok response =>
      let parsed := parseResponse response
      let (lyraResponse, session₂) :=
        appendLyraResponse session₁ parsed.1 parsed.2 lyraMsgId now₂
      (.ok lyraResponse, setSessionAt st₁ sessionId session₂)

/-! ## Concrete fixtures used by witnesses and counterexamples -/

/-- A section with content, used by witnesses. -/
def wSectionA : Section := ⟨"a", .verse, "Verse 1", "la la", false, none, none, none⟩

/-- An empty chorus section, used by witnesses. -/
def wSectionB : Section := ⟨"b", .chorus, "Chorus", "", false, none, none, none⟩

/-- A pending suggestion targeting section `a`, used by witnesses. -/
def wSuggestion : LyraSuggestion := ⟨"g1", "a", "la la", "new lyrics", .pending, 1⟩

/-- An assistant message embedding the pending suggestion. -/
def wMessage : LyraMessage := ⟨"m1", .lyra, "Here is an idea", 1, some wSuggestion⟩

/-- A concrete session with two sections and one message. -/
def wSession : SessionData :=
  ⟨"s1", ⟨"Pop", "Sad", none⟩, [wSectionA, wSectionB], [wMessage], 0, none⟩

/-- A concrete store holding the session. -/
def wState : AppState := ⟨[("s1", wSession)], []⟩

/-- `needle` occurs contiguously inside `hay`. -/
def strContains (hay needle : String) : Prop :=
  ∃ l r : List Char, hay.data = l ++ needle.data ++ r

/-! ## Lemmas about the map model -/

theorem mapGet_mapModify_self (m : List (String × α)) (k : String)
    (f : α → α) : mapGet (mapModify m k f) k = (mapGet m k).map f := by
  induction m with
  | nil => simp [mapGet, mapModify]
  | cons p rest ih =>
    by_cases hp : p.1 = k
    · simp [mapGet, mapModify, List.find?, hp]
    · have hb : (p.1 == k) = false := by simpa using hp
      simp only [mapModify, hb, if_neg, Bool.false_eq_true, not_false_iff]
      simp only [mapGet, List.find?, hb] at ih ⊢
      exact ih

theorem mapGet_mapModify_ne (m : List (String × α)) (k k' : String)
    (f : α → α) (h : k' ≠ k) :
    mapGet (mapModify m k f) k' = mapGet m k' := by
  induction m with
  | nil => simp [mapGet, mapModify]
  | cons p rest ih =>
    by_cases hp : p.1 = k
    · have hbk : (p.1 == k) = true := by simpa using hp
      have hb' : (p.1 == k') = false := by
        simp only [beq_eq_false_iff_ne, ne_eq]
        exact fun e => h (e.symm.trans hp)
      simp [mapGet, mapModify, List.find?, hbk, hb']
    · have hb : (p.1 == k) = false := by simpa using hp
      simp only [mapModify, hb, Bool.false_eq_true, if_neg, not_false_iff]
      by_cases hp' : p.1 = k'
      · have hb' : (p.1 == k') = true := by simpa using hp'
        simp [mapGet, List.find?, hb']
      · have hb' : (p.1 == k') = false := by simpa using hp'
        simp only [mapGet, List.find?, hb'] at ih ⊢
        exact ih

theorem mapGet_mapDelete_self (m : List (String × α)) (k : String) :
    mapGet (mapDelete m k) k = none := by
  induction m with
  | nil => simp [mapGet, mapDelete]
  | cons p rest ih =>
    by_cases hp : p.1 = k
    · have hb : (p.1 == k) = true := by simpa using hp
      simp only [mapDelete, List.filter, hb, Bool.not_true]
      simp only [mapDelete] at ih
      exact ih
    · have hb : (p.1 == k) = false := by simpa using hp
      simp only [mapGet, mapDelete, List.filter, List.find?, hb, Bool.not_false]
      simp only [mapGet, mapDelete] at ih
      exact ih

theorem mapGet_mapDelete_ne (m : List (String × α)) (k k' : String)
    (h : k' ≠ k) : mapGet (mapDelete m k) k' = mapGet m k' := by
  induction m with
  | nil => simp [mapGet, mapDelete]
  | cons p rest ih =>
    by_cases hp : p.1 = k
    · have hb : (p.1 == k) = true := by simpa using hp
      have hb' : (p.1 == k') = false := by
        simp only [beq_eq_false_iff_ne, ne_eq]
        exact fun e => h (e.symm.trans hp)
      simpa [mapGet, mapDelete, List.filter, List.find?, hb, hb'] using ih
    · have hb : (p.1 == k) = false := by simpa using hp
      by_cases hp' : p.1 = k'
      · have hb' : (p.1 == k') = true := by simpa using hp'
        simp [mapGet, mapDelete, List.filter, List.find?, hb, hb']
      · have hb' : (p.1 == k') = false := by simpa using hp'
        simpa [mapGet, mapDelete, List.filter, List.find?, hb, hb'] using ih

theorem mapGet_mapSet_self (m : List (String × α)) (k : String) (v : α) :
    mapGet (mapSet m k v) k = some v := by
  unfold mapSet
  by_cases hany : m.any (fun p => p.1 == k)
  · simp only [hany, if_true]
    induction m with
    | nil => simp at hany
    | cons p rest ih =>
      by_cases hp : p.1 = k
      · have hb : (p.1 == k) = true := by simpa using hp
        simp [mapGet, List.find?, hb]
      · have hb : (p.1 == k) = false := by simpa using hp
        have hany' : rest.any (fun p => p.1 == k) := by
          simpa [List.any, hb] using hany
        simpa [mapGet, List.find?, hb] using ih hany'
  · simp only [hany, if_false, Bool.false_eq_true]
    induction m with
    | nil => simp [mapGet, List.find?]
    | cons p rest ih =>
      have hb : (p.1 == k) = false := by
        by_contra hc
        exact hany (by simp [List.any]; exact Or.inl (by simpa using hc))
      have hany' : ¬ rest.any (fun p => p.1 == k) := by
        intro hc
        exact hany (by simp [List.any] at hc ⊢; exact Or.inr hc)
      simpa [mapGet, List.find?, hb] using ih hany'

/-! ## SessionManager theorems -/

theorem getSession_setSessionAt_self (st : AppState) (sid : String)
    (s₀ s : SessionData) (h : getSession st sid = some s₀) :
    getSession (setSessionAt st sid s) sid = some s := by
  unfold getSession setSessionAt at *
  rw [mapGet_mapModify_self, h]
  rfl

theorem getSession_setSessionAt_ne (st : AppState) (sid sid' : String)
    (s : SessionData) (h : sid' ≠ sid) :
    getSession (setSessionAt st sid s) sid' = getSession st sid' := by
  unfold getSession setSessionAt
  exact mapGet_mapModify_ne st.sessions sid sid' (fun _ => s) h

/-- C9: `endSession` reports whether the session existed, a subsequent
`getSession` on the same identifier yields not-found, other sessions are
untouched, and the store the deletion acts on holds the session with its
sections and conversation history already cleared. -/
theorem endSession_clears_and_removes (st : AppState) (sid : String) :
    (endSession st sid).1 = (getSession st sid).isSome
    ∧ getSession (endSession st sid).2 sid = none
    ∧ (∀ sid', sid' ≠ sid →
        getSession (endSession st sid).2 sid' = getSession st sid')
    ∧ (∀ s, getSession st sid = some s →
        (endSession st sid).2.sessions
            = mapDelete (mapModify st.sessions sid clearSessionData) sid
          ∧ (clearSessionData s).sections = []
          ∧ (clearSessionData s).conversationHistory = []) := by
  unfold endSession
  cases h : getSession st sid with
  | none =>
    refine ⟨by simp [h], by simpa using h, fun sid' _ => rfl, ?_⟩
    intro s hs
    simp at hs
  | some s =>
    refine ⟨by simp [h], ?_, ?_, ?_⟩
    · simpa [getSession] using
        mapGet_mapDelete_self (mapModify st.sessions sid clearSessionData) sid
    · intro sid' hne
      have h₁ := mapGet_mapDelete_ne
        (mapModify st.sessions sid clearSessionData) sid sid' hne
      have h₂ := mapGet_mapModify_ne st.sessions sid sid' clearSessionData hne
      simpa [getSession] using h₁.trans h₂
    · intro s' _
      exact ⟨rfl, rfl, rfl⟩

/-- Witness for C9 at the concrete store. -/
theorem endSession_clears_and_removes_witness :
    getSession (endSession wState "s1").2 "s1" = none
    ∧ (clearSessionData wSession).sections = [] := by
  refine ⟨(endSession_clears_and_removes wState "s1").2.1, ?_⟩
  exact ((endSession_clears_and_removes wState "s1").2.2.2 wSession rfl).2.1

/-! ## Lemmas about `find?` and `updateFirst` -/

theorem find?_first (p : α → Bool) (l₁ : List α) (x : α) (l₂ : List α)
    (h₁ : ∀ y ∈ l₁, p y = false) (h₂ : p x = true) :
    (l₁ ++ x :: l₂).find? p = some x := by
  induction l₁ with
  | nil => simp [List.find?, h₂]
  | cons a rest ih =>
    have ha : p a = false := h₁ a (by simp)
    simp only [List.cons_append, List.find?, ha]
    exact ih (fun y hy => h₁ y (by simp [hy]))

theorem updateFirst_first_match (p : α → Bool) (f : α → α) (l₁ : List α)
    (x : α) (l₂ : List α) (h₁ : ∀ y ∈ l₁, p y = false) (h₂ : p x = true) :
    updateFirst p f (l₁ ++ x :: l₂) = l₁ ++ f x :: l₂ := by
  induction l₁ with
  | nil => simp [updateFirst, h₂]
  | cons a rest ih =>
    have ha : p a = false := h₁ a (by simp)
    simp only [List.cons_append, updateFirst, ha, Bool.false_eq_true, if_neg,
      not_false_iff, List.cons.injEq, true_and]
    exact ih (fun y hy => h₁ y (by simp [hy]))

theorem find?_decomp (p : α → Bool) (l : List α) (x : α)
    (h : l.find? p = some x) :
    ∃ l₁ l₂, l = l₁ ++ x :: l₂ ∧ (∀ y ∈ l₁, p y = false) ∧ p x = true := by
  induction l with
  | nil => simp [List.find?] at h
  | cons a rest ih =>
    by_cases ha : p a
    · rw [List.find?_cons_of_pos _ ha] at h
      have hx : x = a := (Option.some_inj.mp h).symm
      subst hx
      exact ⟨[], rest, by simp, by simp, ha⟩
    · have ha' : p a = false := by simpa using ha
      rw [List.find?_cons_of_neg _ ha] at h
      obtain ⟨l₁, l₂, he, hall, hx⟩ := ih h
      refine ⟨a :: l₁, l₂, by simp [he], ?_, hx⟩
      intro y hy
      rcases List.mem_cons.mp hy with rfl | hy'
      · exact ha'
      · exact hall y hy'

theorem find?_append_some (p : α → Bool) (l₁ l₂ : List α) (a : α)
    (h : l₁.find? p = some a) : (l₁ ++ l₂).find? p = some a := by
  induction l₁ with
  | nil => simp [List.find?] at h
  | cons b rest ih =>
    by_cases hb : p b
    · simp only [List.find?, hb] at h ⊢
      simpa using h
    · have hb' : p b = false := by simpa using hb
      simp only [List.find?, hb'] at h ⊢
      exact ih h

theorem find?_append_none (p : α → Bool) (l₁ l₂ : List α)
    (h : l₁.find? p = none) : (l₁ ++ l₂).find? p = l₂.find? p := by
  induction l₁ with
  | nil => rfl
  | cons b rest ih =>
    by_cases hb : p b
    · rw [List.find?_cons_of_pos _ hb] at h
      simp at h
    · rw [List.find?_cons_of_neg _ hb] at h
      rw [List.cons_append, List.find?_cons_of_neg _ hb]
      exact ih h

theorem updateFirst_append_left (p : α → Bool) (f : α → α) (l₁ l₂ : List α)
    (a : α) (h : l₁.find? p = some a) :
    updateFirst p f (l₁ ++ l₂) = updateFirst p f l₁ ++ l₂ := by
  induction l₁ with
  | nil => simp [List.find?] at h
  | cons b rest ih =>
    by_cases hb : p b
    · simp [updateFirst, hb]
    · have hb' : p b = false := by simpa using hb
      simp only [List.find?, hb'] at h
      simp only [List.cons_append, updateFirst, hb', Bool.false_eq_true,
        if_neg, not_false_iff, List.cons.injEq, true_and]
      exact ih h

theorem updateFirst_map_eq (p : α → Bool) (f : α → α) (g : α → β)
    (l : List α) (h : ∀ x, g (f x) = g x) :
    (updateFirst p f l).map g = l.map g := by
  induction l with
  | nil => rfl
  | cons a rest ih =>
    by_cases ha : p a
    · simp [updateFirst, ha, h a]
    · have ha' : p a = false := by simpa using ha
      simp [updateFirst, ha', ih]

theorem mapModify_comp (m : List (String × α)) (k : String) (f g : α → α) :
    mapModify (mapModify m k f) k g = mapModify m k (fun v => g (f v)) := by
  induction m with
  | nil => rfl
  | cons p rest ih =>
    by_cases hp : p.1 = k
    · have hb : (p.1 == k) = true := by simpa using hp
      simp [mapModify, hb]
    · have hb : (p.1 == k) = false := by simpa using hp
      simp [mapModify, hb, ih]

/-! ## Lemmas about suggestions in conversation history -/

theorem findSuggestion?_setSuggestionStatus (h : List LyraMessage)
    (suggId : String) (status : SuggStatus) (sugg : LyraSuggestion)
    (hfind : findSuggestion? h suggId = some sugg) :
    findSuggestion? (setSuggestionStatus h suggId status) suggId
      = some { sugg with status := status } := by
  induction h with
  | nil => simp [findSuggestion?, List.find?] at hfind
  | cons m rest ih =>
    by_cases hm : msgHasSugg suggId m
    · cases hs : m.suggestion with
      | none => simp [msgHasSugg, hs] at hm
      | some s =>
        have hsugg : s = sugg := by
          unfold findSuggestion? at hfind
          rw [List.find?_cons_of_pos _ hm] at hfind
          simpa [hs] using hfind
        have hid : (s.id == suggId) = true := by
          simpa [msgHasSugg, hs] using hm
        have hm' : msgHasSugg suggId
            { m with suggestion := m.suggestion.map (withStatus status) } = true := by
          simp [msgHasSugg, hs, hid, withStatus]
        unfold setSuggestionStatus
        simp only [updateFirst]
        rw [if_pos hm]
        unfold findSuggestion?
        rw [List.find?_cons_of_pos _ hm']
        simp [hs, hsugg, withStatus]
    · have hmf : msgHasSugg suggId m = false := by simpa using hm
      unfold findSuggestion? at hfind
      rw [List.find?_cons_of_neg _ hm] at hfind
      have hrest : findSuggestion? rest suggId = some sugg := hfind
      have hres := ih hrest
      unfold setSuggestionStatus
      simp only [updateFirst]
      rw [if_neg hm]
      unfold findSuggestion?
      rw [List.find?_cons_of_neg _ hm]
      simpa [findSuggestion?, setSuggestionStatus] using hres

theorem findSuggestion?_none_no_id (h : List LyraMessage) (suggId : String)
    (hnone : findSuggestion? h suggId = none) :
    ∀ m ∈ h, ∀ s, m.suggestion = some s → (s.id == suggId) = false := by
  intro m hm s hs
  have hfind : h.find? (msgHasSugg suggId) = none := by
    unfold findSuggestion? at hnone
    cases hf : h.find? (msgHasSugg suggId) with
    | none => rfl
    | some m' =>
      rw [hf] at hnone
      cases hs' : m'.suggestion with
      | none =>
        have := List.find?_some hf
        simp [msgHasSugg, hs'] at this
      | some s' => simp [hs'] at hnone
  have := List.find?_eq_none.mp hfind m hm
  simpa [msgHasSugg, hs] using this

/-- C10: a suggestion built by `createSuggestion` lands only in the
suggestion-to-session index; conversation history is untouched, so (unless a
caller separately embeds it in a message) `applySuggestion` and
`rejectSuggestion` fail with `SuggestionNotFoundError` and
`getPendingSuggestions` never returns it. -/
theorem createSuggestion_not_discoverable (st : AppState)
    (sid target orig suggested newId : String) (now : Nat)
    (session : SessionData) (hs : getSession st sid = some session)
    (hfresh : findSuggestion? session.conversationHistory newId = none) :
    ∃ st',
      createSuggestion st sid target orig suggested newId now
          = (.ok ⟨newId, target, orig, suggested, .pending, now⟩, st')
      ∧ st'.sessions = st.sessions
      ∧ mapGet st'.suggestionToSession newId = some sid
      ∧ applySuggestion st' sid newId = (.error (.suggestionNotFound newId), st')
      ∧ rejectSuggestion st' sid newId = (.error (.suggestionNotFound newId), st')
      ∧ (∀ l, getPendingSuggestions st' sid = .ok l
          → (⟨newId, target, orig, suggested, .pending, now⟩ : LyraSuggestion) ∉ l) := by
  refine ⟨{ st with suggestionToSession := mapSet st.suggestionToSession newId sid }, ?_, rfl, ?_, ?_, ?_, ?_⟩
  · unfold createSuggestion
    rw [hs]
  · exact mapGet_mapSet_self st.suggestionToSession newId sid
  · unfold applySuggestion
    have hs' : getSession
        { st with suggestionToSession := mapSet st.suggestionToSession newId sid } sid
        = some session := hs
    rw [hs']
    simp [hfresh]
  · unfold rejectSuggestion
    have hs' : getSession
        { st with suggestionToSession := mapSet st.suggestionToSession newId sid } sid
        = some session := hs
    rw [hs']
    simp [hfresh]
  · intro l hl hmem
    unfold getPendingSuggestions at hl
    have hs' : getSession
        { st with suggestionToSession := mapSet st.suggestionToSession newId sid } sid
        = some session := hs
    rw [hs'] at hl
    have hl' : l = session.conversationHistory.filterMap
        (fun m => match m.suggestion with
          | some s => if s.status = .pending then some s else none
          | none => none) := by
      cases hl; rfl
    rw [hl'] at hmem
    obtain ⟨m, hm, hf⟩ := List.mem_filterMap.mp hmem
    cases hsug : m.suggestion with
    | none => simp [hsug] at hf
    | some s =>
      have hse : s = ⟨newId, target, orig, suggested, .pending, now⟩ := by
        by_cases hp : s.status = .pending
        · simpa [hsug, hp] using hf
        · simp [hsug, hp] at hf
      have hid := findSuggestion?_none_no_id session.conversationHistory newId
        hfresh m hm s hsug
      rw [hse] at hid
      simp at hid

/-- Witness for C10 at a concrete store with an empty history session. -/
theorem createSuggestion_not_discoverable_witness :
    ∃ st',
      createSuggestion wState "s1" "a" "la la" "better" "g9" 5
          = (.ok ⟨"g9", "a", "la la", "better", .pending, 5⟩, st')
      ∧ st'.sessions = wState.sessions
      ∧ mapGet st'.suggestionToSession "g9" = some "s1"
      ∧ applySuggestion st' "s1" "g9" = (.error (.suggestionNotFound "g9"), st')
      ∧ rejectSuggestion st' "s1" "g9" = (.error (.suggestionNotFound "g9"), st')
      ∧ (∀ l, getPendingSuggestions st' "s1" = .ok l
          → (⟨"g9", "a", "la la", "better", .pending, 5⟩ : LyraSuggestion) ∉ l) :=
  createSuggestion_not_discoverable wState "s1" "a" "la la" "better" "g9" 5
    wSession rfl (by decide)

/-! ## Characterizing the suggestion lifecycle (C2, C3) -/

theorem getSession_mapModify_session (st : AppState) (sid : String)
    (f : SessionData → SessionData) :
    getSession { st with sessions := mapModify st.sessions sid f } sid
      = (getSession st sid).map f := by
  unfold getSession
  exact mapGet_mapModify_self st.sessions sid f

theorem updateSection_ok_state (st : AppState) (sid secId : String)
    (c? l? : Option String) (sec : Section) (st' : AppState)
    (h : updateSection st sid secId c? l? = (.ok sec, st')) :
    ∃ session, getSession st sid = some session
      ∧ findSection? session.sections secId ≠ none
      ∧ st' = setSessionAt st sid
          { session with
              sections :=
                updateFirst (fun s => s.id == secId)
                  (fun s => applySectionUpdates s c? l?) session.sections } := by
  unfold updateSection at h
  split at h
  next => simp at h
  next session heq =>
    split at h
    next => simp at h
    next sec₀ heq₂ =>
      obtain ⟨hsec, hst'⟩ := (Prod.mk.injEq _ _ _ _).mp h
      exact ⟨session, heq, by simp [heq₂], hst'.symm⟩

/-- C2: a suggestion's status leaves `pending` at most once — on a
non-pending suggestion both `applySuggestion` and `rejectSuggestion` fail
with the state-precondition error (leaving the state untouched), and after
a successful apply or reject, any second apply or reject on the same
identifier fails with that error. -/
theorem suggestion_single_transition (st : AppState) (sid suggId : String) :
    (∀ session sugg, getSession st sid = some session →
       findSuggestion? session.conversationHistory suggId = some sugg →
       sugg.status ≠ .pending →
         applySuggestion st sid suggId
             = (.error (.genericError (notPendingMsg suggId sugg.status)), st)
         ∧ rejectSuggestion st sid suggId
             = (.error (.genericError (notPendingMsg suggId sugg.status)), st))
    ∧ (∀ sec st', applySuggestion st sid suggId = (.ok sec, st') →
         applySuggestion st' sid suggId
             = (.error (.genericError (notPendingMsg suggId .applied)), st')
         ∧ rejectSuggestion st' sid suggId
             = (.error (.genericError (notPendingMsg suggId .applied)), st'))
    ∧ (∀ st', rejectSuggestion st sid suggId = (.ok (), st') →
         applySuggestion st' sid suggId
             = (.error (.genericError (notPendingMsg suggId .rejected)), st')
         ∧ rejectSuggestion st' sid suggId
             = (.error (.genericError (notPendingMsg suggId .rejected)), st')) := by
  refine ⟨?_, ?_, ?_⟩
  · intro session sugg hsession hfind hstat
    constructor
    · unfold applySuggestion
      rw [hsession]
      simp [hfind, hstat]
    · unfold rejectSuggestion
      rw [hsession]
      simp [hfind, hstat]
  · intro sec st' happly
    unfold applySuggestion at happly
    split at happly
    next => simp at happly
    next session hsession =>
      split at happly
      next => simp at happly
      next sugg hfind =>
        split at happly
        next => simp at happly
        next hstat =>
          split at happly
          next e st₁ hupd => simp at happly
          next updatedSection st₁ hupd =>
            obtain ⟨hsec, hst'⟩ := (Prod.mk.injEq _ _ _ _).mp happly
            obtain ⟨sess₁, hget₁, _, hst₁⟩ :=
              updateSection_ok_state st sid sugg.targetSectionId
                (some sugg.suggestedContent) none updatedSection st₁ hupd
            have hsess : sess₁ = session := by
              rw [hsession] at hget₁
              exact (Option.some_inj.mp hget₁).symm
            rw [hsess] at hst₁
            -- the session visible after the apply
            have hget' : getSession st' sid
                = some { session with
                    sections :=
                      updateFirst (fun s => s.id == sugg.targetSectionId)
                        (fun s => applySectionUpdates s
                          (some sugg.suggestedContent) none) session.sections,
                    conversationHistory :=
                      setSuggestionStatus session.conversationHistory suggId
                        .applied } := by
              rw [← hst']
              subst hst₁
              have hmid : getSession (setSessionAt st sid
                  { session with
                      sections :=
                        updateFirst (fun s => s.id == sugg.targetSectionId)
                          (fun s => applySectionUpdates s
                            (some sugg.suggestedContent) none)
                          session.sections }) sid
                  = some { session with
                      sections :=
                        updateFirst (fun s => s.id == sugg.targetSectionId)
                          (fun s => applySectionUpdates s
                            (some sugg.suggestedContent) none)
                          session.sections } :=
                getSession_setSessionAt_self st sid session _ hsession
              rw [getSession_mapModify_session]
              rw [hmid]
              rfl
            have hflip := findSuggestion?_setSuggestionStatus
              session.conversationHistory suggId .applied sugg hfind
            constructor
            · unfold applySuggestion
              rw [hget']
              simp [hflip, notPendingMsg]
            · unfold rejectSuggestion
              rw [hget']
              simp [hflip, notPendingMsg]
  · intro st' hreject
    unfold rejectSuggestion at hreject
    split at hreject
    next => simp at hreject
    next session hsession =>
      split at hreject
      next => simp at hreject
      next sugg hfind =>
        split at hreject
        next => simp at hreject
        next hstat =>
          obtain ⟨_, hst'⟩ := (Prod.mk.injEq _ _ _ _).mp hreject
          have hget' : getSession st' sid
              = some { session with
                  conversationHistory :=
                    setSuggestionStatus session.conversationHistory suggId
                      .rejected } := by
            rw [← hst']
            rw [getSession_mapModify_session]
            rw [hsession]
            rfl
          have hflip := findSuggestion?_setSuggestionStatus
            session.conversationHistory suggId .rejected sugg hfind
          constructor
          · unfold applySuggestion
            rw [hget']
            simp [hflip, notPendingMsg]
          · unfold rejectSuggestion
            rw [hget']
            simp [hflip, notPendingMsg]

/-- Witness for C2: on the concrete store, the first apply succeeds and the
second apply and a subsequent reject both fail with the state error. -/
theorem suggestion_single_transition_witness :
    ∃ sec st',
      applySuggestion wState "s1" "g1" = (.ok sec, st')
      ∧ applySuggestion st' "s1" "g1"
          = (.error (.genericError (notPendingMsg "g1" .applied)), st')
      ∧ rejectSuggestion st' "s1" "g1"
          = (.error (.genericError (notPendingMsg "g1" .applied)), st') := by
  refine ⟨⟨"a", .verse, "Verse 1", "new lyrics", false, none, none, none⟩,
    (applySuggestion wState "s1" "g1").2, by decide, ?_, ?_⟩
  · exact ((suggestion_single_transition wState "s1" "g1").2.1
      ⟨"a", .verse, "Verse 1", "new lyrics", false, none, none, none⟩
      (applySuggestion wState "s1" "g1").2 (by decide)).1
  · exact ((suggestion_single_transition wState "s1" "g1").2.1
      ⟨"a", .verse, "Verse 1", "new lyrics", false, none, none, none⟩
      (applySuggestion wState "s1" "g1").2 (by decide)).2

/-! ## Exact frame of apply / reject (C3) -/

theorem mapModify_congr_value (m : List (String × α)) (k : String)
    (f : α → α) (v : α) (h : mapGet m k = some v) :
    mapModify m k f = mapModify m k (fun _ => f v) := by
  induction m with
  | nil => rfl
  | cons p rest ih =>
    by_cases hp : p.1 = k
    · have hb : (p.1 == k) = true := by simpa using hp
      have hv : p.2 = v := by
        simp only [mapGet, List.find?, hb] at h
        simpa using h
      simp [mapModify, hb, hv]
    · have hb : (p.1 == k) = false := by simpa using hp
      simp only [mapGet, List.find?, hb] at h
      simp [mapModify, hb, ih h]

theorem modify_eq_set (st : AppState) (sid : String)
    (f : SessionData → SessionData) (session : SessionData)
    (h : getSession st sid = some session) :
    ({ st with sessions := mapModify st.sessions sid f } : AppState)
      = setSessionAt st sid (f session) := by
  unfold setSessionAt
  have := mapModify_congr_value st.sessions sid f session h
  rw [this]

theorem setSessionAt_setSessionAt (st : AppState) (sid : String)
    (a b : SessionData) :
    setSessionAt (setSessionAt st sid a) sid b = setSessionAt st sid b := by
  unfold setSessionAt
  simp only
  rw [mapModify_comp]

/-- C3: on a pending suggestion whose target section exists,
`applySuggestion` replaces exactly the target section's content with the
suggestion's `suggestedContent` — every other field of that section, every
other section, and their order are untouched — and flips the suggestion's
status; `rejectSuggestion` only flips the status and never touches any
section. -/
theorem apply_reject_exact_frame (st : AppState) (sid suggId : String)
    (session : SessionData) (sugg : LyraSuggestion)
    (hsession : getSession st sid = some session)
    (hfind : findSuggestion? session.conversationHistory suggId = some sugg)
    (hpending : sugg.status = .pending) :
    (∀ l₁ sec l₂,
       session.sections = l₁ ++ sec :: l₂ →
       (sec.id == sugg.targetSectionId) = true →
       (∀ y ∈ l₁, (y.id == sugg.targetSectionId) = false) →
         applySuggestion st sid suggId
           = (.ok { sec with content := sugg.suggestedContent },
              setSessionAt st sid
                { session with
                    sections :=
                      l₁ ++ { sec with content := sugg.suggestedContent } :: l₂,
                    conversationHistory :=
                      setSuggestionStatus session.conversationHistory suggId
                        .applied }))
    ∧ rejectSuggestion st sid suggId
        = (.ok (), setSessionAt st sid
            { session with
                conversationHistory :=
                  setSuggestionStatus session.conversationHistory suggId
                    .rejected }) := by
  have hnotne : ¬ (sugg.status ≠ SuggStatus.pending) := by
    simp [hpending]
  constructor
  · intro l₁ sec l₂ hsecs hsec hl₁
    have hfs : findSection? session.sections sugg.targetSectionId = some sec := by
      unfold findSection?
      rw [hsecs]
      exact find?_first _ l₁ sec l₂ hl₁ hsec
    have hupdF : updateFirst (fun s => s.id == sugg.targetSectionId)
        (fun s => applySectionUpdates s (some sugg.suggestedContent) none)
        session.sections
        = l₁ ++ { sec with content := sugg.suggestedContent } :: l₂ := by
      rw [hsecs]
      rw [updateFirst_first_match _ _ l₁ sec l₂ hl₁ hsec]
      rfl
    have hupd : updateSection st sid sugg.targetSectionId
        (some sugg.suggestedContent) none
        = (.ok { sec with content := sugg.suggestedContent },
           setSessionAt st sid
             { session with
                 sections :=
                   l₁ ++ { sec with content := sugg.suggestedContent } :: l₂ }) := by
      unfold updateSection
      rw [hsession]
      simp only [hfs, hupdF]
      rfl
    unfold applySuggestion
    rw [hsession]
    simp only [hfind, hupd]
    rw [if_neg hnotne]
    have hmid : getSession (setSessionAt st sid
        { session with
            sections :=
              l₁ ++ { sec with content := sugg.suggestedContent } :: l₂ }) sid
        = some { session with
            sections :=
              l₁ ++ { sec with content := sugg.suggestedContent } :: l₂ } :=
      getSession_setSessionAt_self st sid session _ hsession
    rw [modify_eq_set _ sid _ _ hmid, setSessionAt_setSessionAt]
  · unfold rejectSuggestion
    rw [hsession]
    simp only [hfind]
    rw [if_neg hnotne]
    rw [modify_eq_set st sid _ session hsession]

/-- Witness for C3 at the concrete store: the apply rewrites only section
`a`'s content and the reject only flips the status. -/
theorem apply_reject_exact_frame_witness :
    applySuggestion wState "s1" "g1"
        = (.ok { wSectionA with content := "new lyrics" },
           setSessionAt wState "s1"
             { wSession with
                 sections := [] ++ { wSectionA with content := "new lyrics" } :: [wSectionB],
                 conversationHistory :=
                   setSuggestionStatus wSession.conversationHistory "g1" .applied })
    ∧ rejectSuggestion wState "s1" "g1"
        = (.ok (), setSessionAt wState "s1"
            { wSession with
                conversationHistory :=
                  setSuggestionStatus wSession.conversationHistory "g1" .rejected }) := by
  constructor
  · exact (apply_reject_exact_frame wState "s1" "g1" wSession wSuggestion rfl
      (by decide) rfl).1 [] wSectionA [wSectionB] rfl (by decide) (by decide)
  · exact (apply_reject_exact_frame wState "s1" "g1" wSession wSuggestion rfl
      (by decide) rfl).2

/-! ## Reordering (C4) -/

theorem filterMap_findSection_ids (ids : List String)
    (sections : List Section)
    (h : ∀ id ∈ ids, sections.any (fun s => s.id == id) = true) :
    (ids.filterMap (findSection? sections)).map Section.id = ids := by
  induction ids with
  | nil => rfl
  | cons id rest ih =>
    have hany := h id (by simp)
    obtain ⟨s₀, hs₀, hps₀⟩ := List.any_eq_true.mp hany
    cases hf : findSection? sections id with
    | none =>
      unfold findSection? at hf
      exact absurd hps₀ (by simpa using List.find?_eq_none.mp hf s₀ hs₀)
    | some s =>
      have hid : s.id = id := by
        have := List.find?_some hf
        simpa using this
      simp only [List.filterMap_cons, hf, List.map_cons, hid,
        List.cons.injEq, true_and]
      exact ih (fun i hi => h i (by simp [hi]))

/-- C4 (amended): `reorderSections` fails with `SectionNotFoundError` on the
first supplied identifier that does not exist, fails with the generic
ordering error on a length mismatch, and otherwise succeeds, replacing the
session's list with the sections of the supplied identifiers in the supplied
order (so the new identifier order is exactly the input); consequently every
permutation of the existing identifiers succeeds.  Failures leave the state
unchanged.  (The success condition is weaker than "the input is a
permutation": an input repeating an identifier while matching the count also
succeeds — see the counterexample.) -/
theorem reorderSections_behavior (st : AppState) (sid : String)
    (ids : List String) (session : SessionData)
    (hsession : getSession st sid = some session) :
    (∀ badId,
       ids.find? (fun id => ! session.sections.any (fun s => s.id == id))
           = some badId →
         reorderSections st sid ids = (.error (.sectionNotFound badId), st))
    ∧ (ids.find? (fun id => ! session.sections.any (fun s => s.id == id)) = none →
       ids.length ≠ session.sections.length →
         reorderSections st sid ids = (.error (.genericError reorderErrorMsg), st))
    ∧ (ids.find? (fun id => ! session.sections.any (fun s => s.id == id)) = none →
       ids.length = session.sections.length →
         reorderSections st sid ids
             = (.ok (ids.filterMap (findSection? session.sections)),
                setSessionAt st sid
                  { session with
                      sections := ids.filterMap (findSection? session.sections) })
           ∧ (ids.filterMap (findSection? session.sections)).map Section.id = ids)
    ∧ (ids.Perm (session.sections.map Section.id) →
         reorderSections st sid ids
             = (.ok (ids.filterMap (findSection? session.sections)),
                setSessionAt st sid
                  { session with
                      sections := ids.filterMap (findSection? session.sections) })) := by
  have hmain : ∀ _ : ids.find?
        (fun id => ! session.sections.any (fun s => s.id == id)) = none,
      ∀ _ : ids.length = session.sections.length,
      reorderSections st sid ids
          = (.ok (ids.filterMap (findSection? session.sections)),
             setSessionAt st sid
               { session with
                   sections := ids.filterMap (findSection? session.sections) }) := by
    intro hnone hlen
    unfold reorderSections
    rw [hsession]
    simp only [hnone]
    rw [if_neg (by simp [hlen])]
  refine ⟨?_, ?_, ?_, ?_⟩
  · intro badId hbad
    unfold reorderSections
    rw [hsession]
    simp only [hbad]
  · intro hnone hlen
    unfold reorderSections
    rw [hsession]
    simp only [hnone]
    rw [if_pos hlen]
  · intro hnone hlen
    refine ⟨hmain hnone hlen, ?_⟩
    refine filterMap_findSection_ids ids session.sections ?_
    intro id hid
    have := List.find?_eq_none.mp hnone id hid
    simpa using this
  · intro hperm
    have hlen : ids.length = session.sections.length := by
      have := hperm.length_eq
      simpa using this
    have hnone : ids.find?
        (fun id => ! session.sections.any (fun s => s.id == id)) = none := by
      refine List.find?_eq_none.mpr ?_
      intro id hid
      have hmem : id ∈ session.sections.map Section.id :=
        (hperm.mem_iff).mp hid
      obtain ⟨s, hs, hsid⟩ := List.mem_map.mp hmem
      have hany : session.sections.any (fun s => s.id == id) = true :=
        List.any_eq_true.mpr ⟨s, hs, by simp [hsid]⟩
      simp [hany]
    exact hmain hnone hlen

/-- Witness for C4 at the concrete store: the permutation `["b", "a"]` of
sections `a, b` succeeds and the stored order becomes exactly it. -/
theorem reorderSections_behavior_witness :
    reorderSections wState "s1" ["b", "a"]
        = (.ok [wSectionB, wSectionA],
           setSessionAt wState "s1"
             { wSession with sections := [wSectionB, wSectionA] }) := by
  have h := (reorderSections_behavior wState "s1" ["b", "a"] wSession rfl).2.2.2
    (by decide)
  simpa using h

/-- Counterexample for C4 as stated: the duplicate-identifier list
`["a", "a"]` is not a permutation of the section identifiers `["a", "b"]`,
yet `reorderSections` succeeds, and the stored list silently becomes the
duplicated section (dropping section `b`). -/
theorem reorderSections_perm_counterexample :
    (reorderSections wState "s1" ["a", "a"]).1 = .ok [wSectionA, wSectionA]
    ∧ ¬ (["a", "a"] : List String).Perm (wSession.sections.map Section.id)
    ∧ ((getSession (reorderSections wState "s1" ["a", "a"]).2 "s1").map
        (fun s => s.sections.map Section.id)) = some ["a", "a"] := by
  refine ⟨by decide, by decide, by decide⟩

/-! ## Duplication (C8) -/

theorem applySectionUpdates_id (s : Section) (c? l? : Option String) :
    (applySectionUpdates s c? l?).id = s.id := by
  cases c? <;> cases l? <;> rfl

theorem findSection?_eq_none_of_not_mem (l : List Section) (secId : String)
    (h : secId ∉ l.map Section.id) : findSection? l secId = none := by
  unfold findSection?
  refine List.find?_eq_none.mpr ?_
  intro s hs
  simp only [beq_eq_false_iff_ne, ne_eq, Bool.not_eq_true]
  intro he
  exact h (he ▸ List.mem_map_of_mem Section.id hs)

/-- C8: `duplicateSection` returns a new section with the fresh identifier,
the source's content/type/collapsed/status/chord fields, the label plus
`" (Copy)"`, appended at the end of the list; and a later content update of
the original leaves the duplicate's content unchanged (independent copies). -/
theorem duplicateSection_independent_copy (st : AppState)
    (sid secId newId : String) (session : SessionData) (original : Section)
    (hsession : getSession st sid = some session)
    (hfind : findSection? session.sections secId = some original)
    (hfresh : newId ∉ session.sections.map Section.id) :
    duplicateSection st sid secId newId
        = (.ok (dupOf original newId),
           setSessionAt st sid
             { session with sections := session.sections ++ [dupOf original newId] })
    ∧ (dupOf original newId).label = original.label ++ " (Copy)"
    ∧ (dupOf original newId).content = original.content
    ∧ (∀ s ∈ session.sections, s.id ≠ newId)
    ∧ (∀ newContent sec₂ st₂,
        updateSection (duplicateSection st sid secId newId).2 sid secId
            (some newContent) none = (.ok sec₂, st₂) →
          ∃ session₂, getSession st₂ sid = some session₂
            ∧ findSection? session₂.sections newId = some (dupOf original newId)) := by
  have hdup : duplicateSection st sid secId newId
      = (.ok (dupOf original newId),
         setSessionAt st sid
           { session with sections := session.sections ++ [dupOf original newId] }) := by
    unfold duplicateSection
    rw [hsession]
    simp only [hfind]
    rfl
  have hids : ∀ s ∈ session.sections, s.id ≠ newId := by
    intro s hs he
    exact hfresh (he ▸ List.mem_map_of_mem Section.id hs)
  refine ⟨hdup, rfl, rfl, hids, ?_⟩
  intro newContent sec₂ st₂ hupd
  rw [hdup] at hupd
  simp only at hupd
  obtain ⟨sessD, hgetD, _, hst₂⟩ :=
    updateSection_ok_state _ sid secId (some newContent) none sec₂ st₂ hupd
  have hsD : sessD = { session with
      sections := session.sections ++ [dupOf original newId] } := by
    rw [getSession_setSessionAt_self st sid session
      { session with sections := session.sections ++ [dupOf original newId] }
      hsession] at hgetD
    exact (Option.some_inj.mp hgetD).symm
  subst hsD
  have hfind' : session.sections.find? (fun s => s.id == secId)
      = some original := hfind
  have hnodup : (updateFirst (fun s => s.id == secId)
      (fun s => applySectionUpdates s (some newContent) none)
      session.sections).find? (fun s => s.id == newId) = none := by
    refine List.find?_eq_none.mpr ?_
    intro s hs
    have hmem : s.id ∈ (updateFirst (fun s => s.id == secId)
        (fun s => applySectionUpdates s (some newContent) none)
        session.sections).map Section.id :=
      List.mem_map_of_mem Section.id hs
    rw [updateFirst_map_eq _ _ _ _
      (fun x => applySectionUpdates_id x (some newContent) none)] at hmem
    obtain ⟨s₀, hs₀, hseq⟩ := List.mem_map.mp hmem
    simp only [beq_eq_false_iff_ne, ne_eq, Bool.not_eq_true]
    intro he
    exact hids s₀ hs₀ (hseq.trans he)
  refine ⟨{ session with
      sections := updateFirst (fun s => s.id == secId)
        (fun s => applySectionUpdates s (some newContent) none)
        (session.sections ++ [dupOf original newId]) }, ?_, ?_⟩
  · rw [hst₂]
    exact getSession_setSessionAt_self _ sid
      { session with sections := session.sections ++ [dupOf original newId] } _
      (getSession_setSessionAt_self st sid session _ hsession)
  · simp only
    unfold findSection?
    rw [updateFirst_append_left _ _ session.sections _ original hfind']
    rw [find?_append_none _ _ _ hnodup]
    simp [dupOf, List.find?]

/-- Witness for C8: duplicating section `a` in the concrete store, then
rewriting the original's content, leaves the duplicate's content intact. -/
theorem duplicateSection_independent_copy_witness :
    duplicateSection wState "s1" "a" "c"
        = (.ok (dupOf wSectionA "c"),
           setSessionAt wState "s1"
             { wSession with sections := wSession.sections ++ [dupOf wSectionA "c"] })
    ∧ (∀ newContent sec₂ st₂,
        updateSection (duplicateSection wState "s1" "a" "c").2 "s1" "a"
            (some newContent) none = (.ok sec₂, st₂) →
          ∃ session₂, getSession st₂ "s1" = some session₂
            ∧ findSection? session₂.sections "c" = some (dupOf wSectionA "c")) := by
  have h := duplicateSection_independent_copy wState "s1" "a" "c" wSession
    wSectionA rfl (by decide) (by decide)
  exact ⟨h.1, h.2.2.2.2⟩

/-! ## The streaming reader (C5) -/

theorem emitFrag_settled (st : StreamState) (frag : Option String) :
    (emitFrag st frag).settled = st.settled := by
  cases frag <;> rfl

theorem finishWith_eq_of_some (st : StreamState)
    (x : Except StreamErr String) (r : Except StreamErr String)
    (h : st.settled = some r) : finishWith st x = st := by
  simp [finishWith, h]

theorem drainBuffer_settled (fuel : Nat) (st : StreamState)
    (r : Except StreamErr String) (h : st.settled = some r) :
    (drainBuffer fuel st).settled = some r := by
  induction fuel generalizing st with
  | zero => simpa [drainBuffer] using h
  | succ fuel ih =>
    unfold drainBuffer
    split
    · exact h
    · dsimp only
      split
      · exact ih _ h
      · split
        · split
          · simp [finishWith, emitFrag_settled, h]
          · exact ih _ (by rw [emitFrag_settled]; exact h)
        · simp [finishWith, h]

theorem handleData_settled (st : StreamState) (chunk : String)
    (r : Except StreamErr String) (h : st.settled = some r) :
    (handleData st chunk).settled = some r := by
  unfold handleData
  exact drainBuffer_settled _ _ r h

theorem foldl_handleData_settled (chunks : List String) (st : StreamState)
    (r : Except StreamErr String) (h : st.settled = some r) :
    (chunks.foldl handleData st).settled = some r := by
  induction chunks generalizing st with
  | nil => exact h
  | cons c rest ih => exact ih _ (handleData_settled st c r h)

theorem handleEnd_of_settled (st : StreamState) (r : Except StreamErr String)
    (h : st.settled = some r) : handleEnd st = st := by
  simp [handleEnd, h]

/-- Counterexample for C5 as stated: once a `done:true` record has settled
the stream (here with text `"A"`), a record arriving in a *later* chunk is
still parsed and still invokes `onChunk` (the trace contains `"B"`), even
though the resolved text stays `"A"`: the `data` handler never checks the
settled flag. -/
theorem stream_post_done_chunk_counterexample :
    (runStream ["\x7b\"response\":\"A\",\"done\":true\x7d\n",
        "\x7b\"response\":\"B\",\"done\":false\x7d\n"]).emitted = ["A", "B"]
    ∧ (runStream ["\x7b\"response\":\"A\",\"done\":true\x7d\n",
        "\x7b\"response\":\"B\",\"done\":false\x7d\n"]).settled
        = some (.ok "A") := by
  exact ⟨rfl, rfl⟩

/-- C5 (amended): the reader buffers partial lines across chunk boundaries,
parses each complete newline-delimited record, invokes `onChunk` for every
non-empty fragment in arrival order, accumulates the returned text, and the
*returned text* is fixed as soon as a record's done flag is true — bytes
remaining buffered or arriving later never change the settled result (they
may, however, still trigger `onChunk`, as the counterexample shows).  In
particular the spec's three-record example, split mid-record across two
chunks, emits `"He"` then `"llo"` and returns `"Hello"`. -/
theorem stream_reader_behavior :
    ((runStream ["\x7b\"response\":\"He\",\"done\":false\x7d\n\x7b\"response\":\"l",
        "lo\",\"done\":false\x7d\n\x7b\"response\":\"\",\"done\":true\x7d\n"]).emitted
        = ["He", "llo"]
      ∧ (runStream ["\x7b\"response\":\"He\",\"done\":false\x7d\n\x7b\"response\":\"l",
          "lo\",\"done\":false\x7d\n\x7b\"response\":\"\",\"done\":true\x7d\n"]).settled
          = some (.ok "Hello"))
    ∧ (∀ (chunks more : List String) (r : Except StreamErr String),
        (chunks.foldl handleData initStream).settled = some r →
          (runStream (chunks ++ more)).settled = some r
          ∧ (runStream chunks).settled = some r) := by
  constructor
  · exact ⟨rfl, rfl⟩
  · intro chunks more r h
    constructor
    · unfold runStream
      rw [List.foldl_append]
      have h₂ := foldl_handleData_settled more _ r h
      rw [handleEnd_of_settled _ r h₂]
      exact h₂
    · unfold runStream
      rw [handleEnd_of_settled _ r h]
      exact h

/-- Witness for C5: the settled-stability part applied at a concrete
done-then-garbage chunk pair. -/
theorem stream_reader_behavior_witness :
    (runStream (["\x7b\"response\":\"A\",\"done\":true\x7d\n"] ++ ["garbage"])).settled
      = some (.ok "A") :=
  (stream_reader_behavior.2 ["\x7b\"response\":\"A\",\"done\":true\x7d\n"]
    ["garbage"] (.ok "A") rfl).1

/-! ## Error classification of the model gateway (C7) -/

theorem strData_append (s t : String) : (s ++ t).data = s.data ++ t.data := by
  cases s
  cases t
  rfl

theorem string_ne_of_ne_at (s t : String) (i : Nat)
    (h : s.data[i]? ≠ t.data[i]?) : s ≠ t := by
  intro e
  exact h (by rw [e])

/-- C7: `handleAxiosError` maps a connection refusal to the unreachable
message, a 404 response to the not-configured message naming the expected
model identifier, and every other axios failure (timeouts included) to the
request-failed message carrying the underlying message; the streaming catch
maps `ERR_CANCELED` to the distinct `GenerationAbortedError`; and the four
resulting error values are pairwise distinguishable. -/
theorem gateway_error_classification :
    (∀ e : AxiosLikeError, e.isAxiosError = true →
       (e.code = some "ECONNREFUSED" →
          handleAxiosError e = some (ollamaConnectionError
            ("Cannot connect to Ollama at " ++ ollamaBaseUrl ++ ". Is it running?")))
       ∧ (e.code ≠ some "ECONNREFUSED" → e.responseStatus = some 404 →
          handleAxiosError e = some (ollamaConnectionError
            ("Local Ollama model \x27" ++ ollamaModel ++ "\x27 not found.")))
       ∧ (e.code ≠ some "ECONNREFUSED" → e.responseStatus ≠ some 404 →
          handleAxiosError e = some (ollamaConnectionError
            ("Ollama request failed: " ++ e.message)))
       ∧ (e.code = some "ERR_CANCELED" →
          callOllamaStreamCatch e = generationAbortedError))
    ∧ strContains
        ("Local Ollama model \x27" ++ ollamaModel ++ "\x27 not found.") ollamaModel
    ∧ (∀ m : String,
        ollamaConnectionError
            ("Cannot connect to Ollama at " ++ ollamaBaseUrl ++ ". Is it running?")
          ≠ ollamaConnectionError
            ("Local Ollama model \x27" ++ ollamaModel ++ "\x27 not found.")
        ∧ ollamaConnectionError ("Ollama request failed: " ++ m)
            ≠ ollamaConnectionError
              ("Cannot connect to Ollama at " ++ ollamaBaseUrl ++ ". Is it running?")
        ∧ ollamaConnectionError ("Ollama request failed: " ++ m)
            ≠ ollamaConnectionError
              ("Local Ollama model \x27" ++ ollamaModel ++ "\x27 not found.")
        ∧ generationAbortedError.name ≠ (ollamaConnectionError m).name) := by
  refine ⟨?_, ?_, ?_⟩
  · intro e hax
    refine ⟨?_, ?_, ?_, ?_⟩
    · intro hc
      unfold handleAxiosError
      simp [hax, hc]
    · intro hc hs
      unfold handleAxiosError
      have hcb : (e.code == some "ECONNREFUSED") = false := by
        simpa using hc
      simp [hax, hcb, hs]
    · intro hc hs
      unfold handleAxiosError
      have hcb : (e.code == some "ECONNREFUSED") = false := by
        simpa using hc
      have hsb : (e.responseStatus == some 404) = false := by
        simpa using hs
      simp [hax, hcb, hsb]
    · intro hc
      unfold callOllamaStreamCatch
      simp [hax, hc]
  · exact ⟨("Local Ollama model \x27").data, ("\x27 not found.").data, by decide⟩
  · intro m
    refine ⟨by decide, ?_, ?_,
      show ("GenerationAbortedError" : String) ≠ "OllamaConnectionError" by decide⟩
    · intro he
      have hmsg : ("Ollama connection error: " ++ ("Ollama request failed: " ++ m))
          = "Ollama connection error: " ++ ("Cannot connect to Ollama at "
              ++ ollamaBaseUrl ++ ". Is it running?") := by
        have := congrArg ThrownError.message he
        simpa [ollamaConnectionError] using this
      have hdata := congrArg String.data hmsg
      rw [strData_append, strData_append] at hdata
      have hAB := List.append_cancel_left hdata
      have h0 := congrArg (fun l => l[0]?) hAB
      simp only at h0
      rw [List.getElem?_append_left (by decide)] at h0
      exact absurd h0 (by decide)
    · intro he
      have hmsg : ("Ollama connection error: " ++ ("Ollama request failed: " ++ m))
          = "Ollama connection error: " ++ ("Local Ollama model \x27"
              ++ ollamaModel ++ "\x27 not found.") := by
        have := congrArg ThrownError.message he
        simpa [ollamaConnectionError] using this
      have hdata := congrArg String.data hmsg
      rw [strData_append, strData_append] at hdata
      have hAB := List.append_cancel_left hdata
      have h0 := congrArg (fun l => l[0]?) hAB
      simp only at h0
      rw [List.getElem?_append_left (by decide)] at h0
      exact absurd h0 (by decide)

/-- Witness for C7: a timeout-style axios error (code `ECONNABORTED`) maps
to the request-failed message, and a cancellation maps to the distinct
aborted error. -/
theorem gateway_error_classification_witness :
    handleAxiosError ⟨true, some "ECONNABORTED", none, "timeout of 30000ms exceeded", "AxiosError"⟩
        = some (ollamaConnectionError
            ("Ollama request failed: " ++ "timeout of 30000ms exceeded"))
    ∧ callOllamaStreamCatch ⟨true, some "ERR_CANCELED", none, "canceled", "CanceledError"⟩
        = generationAbortedError := by
  constructor
  · exact ((gateway_error_classification.1
      ⟨true, some "ECONNABORTED", none, "timeout of 30000ms exceeded", "AxiosError"⟩
      rfl).2.2.1 (by decide) (by decide))
  · exact ((gateway_error_classification.1
      ⟨true, some "ERR_CANCELED", none, "canceled", "CanceledError"⟩
      rfl).2.2.2 rfl)

/-! ## Prompt construction covers the full session state (C6) -/

theorem strContains_self (x : String) : strContains x x :=
  ⟨[], [], by simp⟩

theorem strContains_appendL {a x : String} (b : String)
    (h : strContains a x) : strContains (a ++ b) x := by
  obtain ⟨l, r, hl⟩ := h
  exact ⟨l, r ++ b.data, by rw [strData_append, hl]; simp⟩

theorem strContains_appendR (a : String) {b x : String}
    (h : strContains b x) : strContains (a ++ b) x := by
  obtain ⟨l, r, hl⟩ := h
  exact ⟨a.data ++ l, r, by rw [strData_append, hl]; simp⟩

theorem strContains_joinSep (sep : String) (l : List String) (x : String)
    (h : x ∈ l) : strContains (joinSep sep l) x := by
  induction l with
  | nil => simp at h
  | cons a rest ih =>
    cases rest with
    | nil =>
      have hx : x = a := by simpa using h
      subst hx
      exact strContains_self x
    | cons b rest' =>
      rcases List.mem_cons.mp h with rfl | hmem
      · exact strContains_appendL _ (strContains_appendL _ (strContains_self x))
      · exact strContains_appendR _ (ih hmem)

theorem renderSectionEntry_mem_renderEntries
    (mc : Option MusicContext) (l : List Section) :
    ∀ (j i : Nat) (h : i < l.length),
      renderSectionEntry mc (j + i) (l.get ⟨i, h⟩) ∈ renderEntries mc j l := by
  induction l with
  | nil =>
    intro j i h
    simp at h
  | cons s rest ih =>
    intro j i h
    cases i with
    | zero => simp [renderEntries]
    | succ i' =>
      have h' : i' < rest.length := by
        simpa [Nat.succ_lt_succ_iff] using h
      have hmem := ih (j + 1) i' h'
      have harith : j + (i' + 1) = (j + 1) + i' := by omega
      simp only [List.get_cons_succ, renderEntries, harith]
      exact List.mem_cons_of_mem _ hmem

/-- C6: the prompt built by `constructPrompt` contains the rendered entry of
every section (at its position) and the rendered line of every conversation
message — the blocks are built from the whole lists, not a window — and
`sendMessage` and `sendMessageStream` compute the identical prompt for
identical session state. -/
theorem prompt_full_context (session : SessionData) :
    (∀ (i : Nat) (h : i < session.sections.length),
       strContains (constructPrompt session)
         (renderSectionEntry session.musicContext i (session.sections.get ⟨i, h⟩)))
    ∧ (∀ m ∈ session.conversationHistory,
       strContains (constructPrompt session) (renderMsg m))
    ∧ (∀ (userMessage msgId : String) (now : Nat),
       sendMessagePromptOf session userMessage msgId now
         = sendMessageStreamPromptOf session userMessage msgId now) := by
  refine ⟨?_, ?_, fun _ _ _ => rfl⟩
  · intro i h
    have hx : strContains
        (timelineSection session.musicContext session.sections)
        (renderSectionEntry session.musicContext i (session.sections.get ⟨i, h⟩)) := by
      unfold timelineSection
      rw [if_pos (by omega)]
      have hmem : renderSectionEntry session.musicContext i
          (session.sections.get ⟨i, h⟩)
          ∈ renderEntries session.musicContext 0 session.sections := by
        have := renderSectionEntry_mem_renderEntries session.musicContext
          session.sections 0 i h
        simpa using this
      exact strContains_appendL _ (strContains_appendR _
        (strContains_joinSep "\n" _ _ hmem))
    unfold constructPrompt
    exact strContains_appendL _ (strContains_appendL _ (strContains_appendL _
      (strContains_appendR _ hx)))
  · intro m hm
    have hx : strContains (historySection session.conversationHistory)
        (renderMsg m) := by
      unfold historySection
      rw [if_pos (by
        have := List.length_pos.mpr (List.ne_nil_of_mem hm)
        omega)]
      exact strContains_appendL _ (strContains_appendR _
        (strContains_joinSep "\n" _ _ (List.mem_map_of_mem renderMsg hm)))
    unfold constructPrompt
    exact strContains_appendL _ (strContains_appendR _ hx)

/-- Witness for C6 at the concrete session: the prompt contains the first
section's rendered entry and the rendered assistant line. -/
theorem prompt_full_context_witness :
    strContains (constructPrompt wSession)
      (renderSectionEntry wSession.musicContext 0 (wSession.sections.get ⟨0, by decide⟩))
    ∧ strContains (constructPrompt wSession) (renderMsg wMessage) :=
  ⟨(prompt_full_context wSession).1 0 (by decide),
   (prompt_full_context wSession).2.1 wMessage (by decide)⟩

/-! ## Generation never mutates sections (C1) -/

theorem sendMessageStream_eq_sendMessage (st : AppState)
    (sid userMessage : String) (chunks : List String)
    (userMsgId lyraMsgId : String) (now₁ now₂ : Nat) :
    sendMessageStream st sid userMessage chunks userMsgId lyraMsgId now₁ now₂
      = sendMessage st sid userMessage (streamOutcome chunks)
          userMsgId lyraMsgId now₁ now₂ := rfl

theorem sendMessage_state_shape (st : AppState) (sid userMessage : String)
    (modelResult : Except ThrownError String)
    (userMsgId lyraMsgId : String) (now₁ now₂ : Nat) :
    (getSession st sid = none →
      (sendMessage st sid userMessage modelResult userMsgId lyraMsgId
        now₁ now₂).2 = st)
    ∧ (∀ session, getSession st sid = some session →
        (sendMessage st sid userMessage modelResult userMsgId lyraMsgId
            now₁ now₂).2
          = setSessionAt st sid
              { session with
                  conversationHistory :=
                    session.conversationHistory
                      ++ (⟨userMsgId, .user, userMessage, now₁, none⟩ : LyraMessage)
                        :: (match modelResult with
                            | .error _ => []
                            | .ok response =>
                              [⟨lyraMsgId, .lyra, (parseResponse response).1,
                                now₂, none⟩]) }) := by
  constructor
  · intro hnone
    unfold sendMessage
    rw [hnone]
  · intro session hsession
    unfold sendMessage
    rw [hsession]
    cases modelResult with
    | error t =>
      simp only [appendUserMessage]
    | ok response =>
      simp only [appendUserMessage, appendLyraResponse, parseResponse]
      rw [setSessionAt_setSessionAt]
      simp

/-- C1: neither `sendMessage` nor `sendMessageStream` changes any field of
any section of any session — on every path (missing session, gateway
failure, success) the stored section lists are untouched; the only state
change is appending the user message and, on success, the assistant message
(role `lyra`, no embedded suggestion) to the target session's conversation
history. -/
theorem generation_never_mutates_sections (st : AppState)
    (sid userMessage : String) (modelResult : Except ThrownError String)
    (chunks : List String) (userMsgId lyraMsgId : String) (now₁ now₂ : Nat) :
    (∀ sid',
      ((getSession (sendMessage st sid userMessage modelResult userMsgId
          lyraMsgId now₁ now₂).2 sid').map SessionData.sections)
        = (getSession st sid').map SessionData.sections)
    ∧ (∀ session, getSession st sid = some session →
        ∃ tail,
          ((getSession (sendMessage st sid userMessage modelResult userMsgId
              lyraMsgId now₁ now₂).2 sid).map SessionData.conversationHistory)
            = some (session.conversationHistory
                ++ (⟨userMsgId, .user, userMessage, now₁, none⟩ : LyraMessage)
                  :: tail)
          ∧ (tail = []
             ∨ ∃ lyraMsg, tail = [lyraMsg] ∧ lyraMsg.role = .lyra
                 ∧ lyraMsg.suggestion = none))
    ∧ (getSession st sid = none →
        (sendMessage st sid userMessage modelResult userMsgId lyraMsgId
          now₁ now₂).2 = st)
    ∧ (∀ sid',
      ((getSession (sendMessageStream st sid userMessage chunks userMsgId
          lyraMsgId now₁ now₂).2 sid').map SessionData.sections)
        = (getSession st sid').map SessionData.sections)
    ∧ (∀ session, getSession st sid = some session →
        ∃ tail,
          ((getSession (sendMessageStream st sid userMessage chunks userMsgId
              lyraMsgId now₁ now₂).2 sid).map SessionData.conversationHistory)
            = some (session.conversationHistory
                ++ (⟨userMsgId, .user, userMessage, now₁, none⟩ : LyraMessage)
                  :: tail)
          ∧ (tail = []
             ∨ ∃ lyraMsg, tail = [lyraMsg] ∧ lyraMsg.role = .lyra
                 ∧ lyraMsg.suggestion = none)) := by
  have frame : ∀ (mr : Except ThrownError String) (sid' : String),
      ((getSession (sendMessage st sid userMessage mr userMsgId
          lyraMsgId now₁ now₂).2 sid').map SessionData.sections)
        = (getSession st sid').map SessionData.sections := by
    intro mr sid'
    cases hsession : getSession st sid with
    | none =>
      rw [(sendMessage_state_shape st sid userMessage mr userMsgId lyraMsgId
        now₁ now₂).1 hsession]
    | some session =>
      rw [(sendMessage_state_shape st sid userMessage mr userMsgId lyraMsgId
        now₁ now₂).2 session hsession]
      by_cases hsid : sid' = sid
      · subst hsid
        rw [getSession_setSessionAt_self st sid' session _ hsession, hsession]
        rfl
      · rw [getSession_setSessionAt_ne st sid sid' _ hsid]
  have hist : ∀ (mr : Except ThrownError String) (session : SessionData),
      getSession st sid = some session →
      ∃ tail,
        ((getSession (sendMessage st sid userMessage mr userMsgId
            lyraMsgId now₁ now₂).2 sid).map SessionData.conversationHistory)
          = some (session.conversationHistory
              ++ (⟨userMsgId, .user, userMessage, now₁, none⟩ : LyraMessage)
                :: tail)
        ∧ (tail = []
           ∨ ∃ lyraMsg, tail = [lyraMsg] ∧ lyraMsg.role = .lyra
               ∧ lyraMsg.suggestion = none) := by
    intro mr session hsession
    rw [(sendMessage_state_shape st sid userMessage mr userMsgId lyraMsgId
      now₁ now₂).2 session hsession]
    rw [getSession_setSessionAt_self st sid session _ hsession]
    cases mr with
    | error t => exact ⟨[], by simp, Or.inl rfl⟩
    | ok response =>
      refine ⟨[⟨lyraMsgId, .lyra, (parseResponse response).1, now₂, none⟩],
        by simp, Or.inr ⟨_, rfl, rfl, rfl⟩⟩
  refine ⟨frame modelResult, hist modelResult, ?_, ?_, ?_⟩
  · intro hnone
    exact (sendMessage_state_shape st sid userMessage modelResult userMsgId
      lyraMsgId now₁ now₂).1 hnone
  · intro sid'
    rw [sendMessageStream_eq_sendMessage]
    exact frame (streamOutcome chunks) sid'
  · intro session hsession
    rw [sendMessageStream_eq_sendMessage]
    exact hist (streamOutcome chunks) session hsession

/-- Witness for C1: a blocking generation on the concrete store leaves both
sections untouched and appends exactly the user/assistant pair. -/
theorem generation_never_mutates_sections_witness :
    ((getSession (sendMessage wState "s1" "hi" (.ok " an idea ") "u1" "l1"
        2 3).2 "s1").map SessionData.sections)
      = some [wSectionA, wSectionB]
    ∧ ∃ tail,
        ((getSession (sendMessage wState "s1" "hi" (.ok " an idea ") "u1" "l1"
            2 3).2 "s1").map SessionData.conversationHistory)
          = some (wSession.conversationHistory
              ++ (⟨"u1", .user, "hi", 2, none⟩ : LyraMessage) :: tail)
        ∧ (tail = []
           ∨ ∃ lyraMsg, tail = [lyraMsg] ∧ lyraMsg.role = .lyra
               ∧ lyraMsg.suggestion = none) := by
  constructor
  · have h := (generation_never_mutates_sections wState "s1" "hi"
      (.ok " an idea ") [] "u1" "l1" 2 3).1 "s1"
    rw [h]
    rfl
  · exact (generation_never_mutates_sections wState "s1" "hi"
      (.ok " an idea ") [] "u1" "l1" 2 3).2.1 wSession rfl

end Verse
